import Mathlib

/- Verification development for the Bastion Browser main-process core:
   the privacy-enforcement network layer and the GitHub-release self-update
   pipeline. Definitions are shallow embeddings of the JavaScript source:
   JS strings become `String`, JS arrays become `List`, JS header objects
   become ordered association lists, filesystem and network effects become
   explicit state passing over small models. -/


/- ===================== Kernel-computable string primitives ===================== -/

/-- JS `String.prototype.toLowerCase` for the ASCII inputs relevant
here, computed over the character list. -/
def jsToLower (s : String) : String :=
  String.mk (s.toList.map Char.toLower)

/-- JS `String.prototype.trim`: strip leading and trailing whitespace. -/
def jsTrim (s : String) : String :=
  String.mk (((s.toList.dropWhile Char.isWhitespace).reverse.dropWhile
    Char.isWhitespace).reverse)

/-- Split a character list on a separator character (JS
`String.prototype.split` with a one-character separator). -/
def splitChars (sep : Char) : List Char → List (List Char)
  | [] => [[]]
  | c :: rest =>
    match splitChars sep rest with
    | h :: t => if c = sep then [] :: h :: t else (c :: h) :: t
    | [] => [[c]]

/-- String-level wrapper for `splitChars`. -/
def splitString (sep : Char) (s : String) : List String :=
  (splitChars sep s.toList).map String.mk

/-- Prefix test on character lists. -/
def isPrefixOfList : List Char → List Char → Bool
  | [], _ => true
  | _ :: _, [] => false
  | a :: as, b :: bs => a = b && isPrefixOfList as bs

/-- JS `String.prototype.endsWith`. -/
def strEndsWith (s suffix : String) : Bool :=
  isPrefixOfList suffix.toList.reverse s.toList.reverse

/-- Join strings with a separator character (`Array.prototype.join`). -/
def joinWithChar (sep : Char) : List String → String
  | [] => ""
  | [s] => s
  | s :: rest => s ++ String.mk [sep] ++ joinWithChar sep rest

/- ===================== URL model ===================== -/

/-- URL object model: the two fields of a parsed WHATWG URL that the
privacy layer reads (`protocol` keeps the trailing colon, `hostname` is
lowercased). -/
structure UrlParts where
  protocol : String
  hostname : String
deriving DecidableEq

/-- Characters allowed after the first character of a URL scheme. -/
def schemeChar (c : Char) : Bool :=
  c.isAlpha || c.isDigit || c = '+' || c = '-' || c = '.'

/-- Models `new URL(String(input || ""))` wrapped in try/catch
(`toUrlObject` in the source), for the `scheme://host...` URLs the
privacy layer sees: the scheme is an alphabetic-led run before `://`, the
hostname runs to the first `/`, `:`, `?` or `#`. Parsing failure is
`none`. -/
def toUrlObject (input : String) : Option UrlParts :=
  let cs := input.toList
  let scheme := cs.takeWhile schemeChar
  let rest := cs.dropWhile schemeChar
  match scheme, rest with
  | c0 :: _, ':' :: '/' :: '/' :: rest2 =>
    if c0.isAlpha then
      let host := rest2.takeWhile (fun c => c ≠ '/' && c ≠ ':' && c ≠ '?' && c ≠ '#')
      if host.isEmpty then none
      else some { protocol := jsToLower (String.mk scheme) ++ ":"
                  hostname := jsToLower (String.mk host) }
    else none
  | _, _ => none

/-- Source `getHostnameFromUrl`: hostname of a parsed URL, else `""`. -/
def getHostnameFromUrl (input : String) : String :=
  match toUrlObject input with
  | some u => u.hostname
  | none => ""

/- ===================== Host matcher ===================== -/

/-- Source constant `LOOPBACK_HOSTS`. -/
def LOOPBACK_HOSTS : List String := ["localhost", "127.0.0.1", "::1", "[::1]"]

/-- Source constant `TRACKER_HOST_RULES`. -/
def TRACKER_HOST_RULES : List String :=
  ["doubleclick.net", "google-analytics.com", "googletagmanager.com",
   "googlesyndication.com", "adservice.google.com", "ads.yahoo.com",
   "facebook.net", "connect.facebook.net", "scorecardresearch.com",
   "hotjar.com", "segment.io", "mixpanel.com", "taboola.com",
   "outbrain.com", "adnxs.com", "criteo.com", "quantserve.com"]

/-- Source constant `TRACKER_RESOURCE_TYPES`. -/
def TRACKER_RESOURCE_TYPES : List String :=
  ["script", "image", "xhr", "fetch", "subFrame", "ping", "media",
   "font", "stylesheet", "object", "webSocket"]

/-- The regex `/^\d{1,3}(\.\d{1,3}){3}$/` used for literal IPv4 detection. -/
def isIPv4Literal (s : String) : Bool :=
  let groups := splitString '.' s
  groups.length = 4 &&
    groups.all (fun g => !g.isEmpty && g.length ≤ 3 && g.toList.all Char.isDigit)

/-- Source `getSiteKey`: loopback hosts, `*.localhost` and IPv4 literals
map to themselves; hostnames of at most two labels map to themselves;
otherwise the last two dot-separated labels. -/
def getSiteKey (hostname : String) : String :=
  let value := jsToLower hostname
  if value = "" then ""
  else if value ∈ LOOPBACK_HOSTS ∨ strEndsWith value ".localhost" = true then value
  else if isIPv4Literal value then value
  else
    let parts := (splitString '.' value).filter (fun p => p ≠ "")
    if parts.length ≤ 2 then value
    else joinWithChar '.' (parts.drop (parts.length - 2))

/-- Source `isThirdPartyRequest`: true iff both URLs yield a hostname and
their site keys differ (fails open to `false`). -/
def isThirdPartyRequest (requestUrl initiatorUrl : String) : Bool :=
  let requestHost := getHostnameFromUrl requestUrl
  let initiatorHost := getHostnameFromUrl initiatorUrl
  if requestHost = "" || initiatorHost = "" then false
  else getSiteKey requestHost ≠ getSiteKey initiatorHost

/-- Source `matchesTrackerHost`: hostname equals a rule or is a
dot-subdomain of one. -/
def matchesTrackerHost (hostname : String) : Bool :=
  let value := jsToLower hostname
  if value = "" then false
  else TRACKER_HOST_RULES.any (fun rule => value = rule || strEndsWith value ("." ++ rule))

/- ===================== Privacy config, stats, request model ===================== -/

/-- Source `DEFAULT_PRIVACY_CONFIG` field set: the exact flags of the
main process (there is no `stripThirdPartyReferer` flag in the source
config). -/
structure PrivacyConfig where
  blockTrackers : Bool
  upgradeHttps : Bool
  sendDoNotTrack : Bool
  sendGlobalPrivacyControl : Bool
  blockThirdPartyCookies : Bool
  blockFingerprintingPermissions : Bool
  clearDataOnExit : Bool
deriving DecidableEq

/-- Source `DEFAULT_PRIVACY_CONFIG` values. -/
def DEFAULT_PRIVACY_CONFIG : PrivacyConfig :=
  { blockTrackers := true, upgradeHttps := true, sendDoNotTrack := true
    sendGlobalPrivacyControl := true, blockThirdPartyCookies := true
    blockFingerprintingPermissions := true, clearDataOnExit := false }

/-- Source `createEmptyPrivacyStats` field set: note the source stats
object has exactly these four counters plus `startedAt`; there is no
`strippedRefererHeaders` counter. -/
structure PrivacyStats where
  blockedRequests : Nat
  upgradedToHttps : Nat
  strippedCookieHeaders : Nat
  blockedPermissions : Nat
  startedAt : Nat
deriving DecidableEq

/-- Source `incrementPrivacyStat`: increments the named own numeric
property by one; a key that is not a property of the stats object is a
no-op (the `hasOwnProperty` guard). -/
def incrementPrivacyStat (stats : PrivacyStats) (key : String) : PrivacyStats :=
  if key = "blockedRequests" then { stats with blockedRequests := stats.blockedRequests + 1 }
  else if key = "upgradedToHttps" then { stats with upgradedToHttps := stats.upgradedToHttps + 1 }
  else if key = "strippedCookieHeaders" then
    { stats with strippedCookieHeaders := stats.strippedCookieHeaders + 1 }
  else if key = "blockedPermissions" then
    { stats with blockedPermissions := stats.blockedPermissions + 1 }
  else if key = "startedAt" then { stats with startedAt := stats.startedAt + 1 }
  else stats

/-- The `{url, resourceType, initiator}` slice of Electron request
details that the privacy layer reads (`initiator` is `none` when the
source sees a non-string initiator). -/
structure RequestDetails where
  url : String
  resourceType : String
  initiator : Option String
deriving DecidableEq

/-- Source `shouldBlockTrackerRequest`. -/
def shouldBlockTrackerRequest (cfg : PrivacyConfig) (details : RequestDetails) : Bool :=
  if !cfg.blockTrackers then false
  else
    let resourceType := details.resourceType
    if !(resourceType ∈ TRACKER_RESOURCE_TYPES) then false
    else
      let host := getHostnameFromUrl details.url
      if host = "" || !matchesTrackerHost host then false
      else
        let initiator := details.initiator.getD ""
        if initiator = "" then resourceType ≠ "mainFrame"
        else isThirdPartyRequest details.url initiator

/-- Source `shouldUpgradeToHttps`. -/
def shouldUpgradeToHttps (rawUrl : String) : Bool :=
  match toUrlObject rawUrl with
  | none => false
  | some parsed =>
    if parsed.protocol ≠ "http:" then false
    else
      let host := jsToLower parsed.hostname
      if host = "" ∨ host ∈ LOOPBACK_HOSTS ∨ strEndsWith host ".localhost" = true then false
      else if isIPv4Literal host then false
      else true

/-- The anchored case-insensitive rewrite
`String(details.url).replace(/^http:\/\//i, "https://")`. -/
def upgradeRedirectURL (url : String) : String :=
  if jsToLower (String.mk (url.toList.take 7)) = "http://" then
    "https://" ++ String.mk (url.toList.drop 7)
  else url

/-- Per-request decision returned by the `onBeforeRequest` callback. -/
inductive RequestDecision where
  | cancel
  | redirect (url : String)
  | pass
deriving DecidableEq

/-- The `onBeforeRequest` interception handler installed by
`configurePrivacyNetworkLayer`: tracker blocking first, then the HTTPS
upgrade, else pass; paired with the statistics update it performs. -/
def onBeforeRequestHandler (cfg : PrivacyConfig) (stats : PrivacyStats)
    (details : RequestDetails) : RequestDecision × PrivacyStats :=
  if shouldBlockTrackerRequest cfg details then
    (.cancel, incrementPrivacyStat stats "blockedRequests")
  else if cfg.upgradeHttps && shouldUpgradeToHttps details.url then
    let redirectURL := upgradeRedirectURL details.url
    if redirectURL ≠ details.url then
      (.redirect redirectURL, incrementPrivacyStat stats "upgradedToHttps")
    else (.pass, stats)
  else (.pass, stats)

/- ===================== Header mutation ===================== -/

/-- Request headers as an ordered association list, modeling a JS object
in insertion order with unique keys. -/
abbrev HeadersModel := List (String × String)

/-- Source `findHeaderKey`: the first key matching case-insensitively. -/
def findHeaderKey (headers : HeadersModel) (name : String) : Option String :=
  (headers.find? (fun kv => jsToLower kv.1 = jsToLower name)).map Prod.fst

/-- Source `setHeader`: overwrite the value at the found key, else append
under the given name. -/
def setHeader (headers : HeadersModel) (name value : String) : HeadersModel :=
  match findHeaderKey headers name with
  | some key => headers.map (fun kv => if kv.1 = key then (kv.1, value) else kv)
  | none => headers ++ [(name, value)]

/-- Source `removeHeader`: delete the found key, if any. -/
def removeHeader (headers : HeadersModel) (name : String) : HeadersModel :=
  match findHeaderKey headers name with
  | some key => headers.filter (fun kv => kv.1 ≠ key)
  | none => headers

/-- Source `hasHeader`. -/
def hasHeader (headers : HeadersModel) (name : String) : Bool :=
  (findHeaderKey headers name).isSome

/-- The `onBeforeSendHeaders` header-mutation handler installed by
`configurePrivacyNetworkLayer`: DNT, Sec-GPC, and third-party Cookie
stripping. The source contains no Referer handling of any kind. -/
def onBeforeSendHeadersHandler (cfg : PrivacyConfig) (stats : PrivacyStats)
    (details : RequestDetails) (requestHeaders : HeadersModel) :
    HeadersModel × PrivacyStats :=
  let h1 :=
    if cfg.sendDoNotTrack then setHeader requestHeaders "DNT" "1"
    else removeHeader requestHeaders "DNT"
  let h2 :=
    if cfg.sendGlobalPrivacyControl then setHeader h1 "Sec-GPC" "1"
    else removeHeader h1 "Sec-GPC"
  if cfg.blockThirdPartyCookies && hasHeader h2 "Cookie" &&
      isThirdPartyRequest details.url (details.initiator.getD "") then
    (removeHeader h2 "Cookie", incrementPrivacyStat stats "strippedCookieHeaders")
  else (h2, stats)

/- ===================== Permission gate ===================== -/

/-- Source constant `FINGERPRINTING_PERMISSIONS`. -/
def FINGERPRINTING_PERMISSIONS : List String :=
  ["idle-detection", "window-management", "display-capture", "midi",
   "midiSysex", "midi-sysex", "pointerLock", "background-sync",
   "payment-handler", "speaker-selection"]

/-- Source constant `ALLOWED_PERMISSIONS`. -/
def ALLOWED_PERMISSIONS : List String :=
  ["fullscreen", "notifications", "clipboard-read", "media"]

/-- The permission request handler installed by `configurePermissions`:
deny and count fingerprinting-risk capabilities when the flag is on, else
allow exactly the allow-list, counting every denial. -/
def permissionRequestHandler (cfg : PrivacyConfig) (stats : PrivacyStats)
    (permission : String) : Bool × PrivacyStats :=
  if cfg.blockFingerprintingPermissions && permission ∈ FINGERPRINTING_PERMISSIONS then
    (false, incrementPrivacyStat stats "blockedPermissions")
  else
    let allowed : Bool := permission ∈ ALLOWED_PERMISSIONS
    (allowed, if allowed then stats else incrementPrivacyStat stats "blockedPermissions")

/-- The permission check handler installed by `configurePermissions`
(same decision, no statistics). -/
def permissionCheckHandler (cfg : PrivacyConfig) (permission : String) : Bool :=
  if cfg.blockFingerprintingPermissions && permission ∈ FINGERPRINTING_PERMISSIONS then false
  else permission ∈ ALLOWED_PERMISSIONS

/- ===================== Core state and the stateful operations ===================== -/

/-- A partial privacy-config patch: each field either absent or a
boolean, as `sanitizePrivacyConfig({...privacyConfig, ...raw})` treats
the IPC payload. -/
structure PrivacyConfigPatch where
  blockTrackers : Option Bool := none
  upgradeHttps : Option Bool := none
  sendDoNotTrack : Option Bool := none
  sendGlobalPrivacyControl : Option Bool := none
  blockThirdPartyCookies : Option Bool := none
  blockFingerprintingPermissions : Option Bool := none
  clearDataOnExit : Option Bool := none
deriving DecidableEq

/-- Source `patchPrivacyConfig`: merge the patch over the current config
and re-sanitize (boolean fields pass through, absent fields keep the
current value). The function never touches `privacyStats`. -/
def patchPrivacyConfig (cfg : PrivacyConfig) (patch : PrivacyConfigPatch) : PrivacyConfig :=
  { blockTrackers := patch.blockTrackers.getD cfg.blockTrackers
    upgradeHttps := patch.upgradeHttps.getD cfg.upgradeHttps
    sendDoNotTrack := patch.sendDoNotTrack.getD cfg.sendDoNotTrack
    sendGlobalPrivacyControl := patch.sendGlobalPrivacyControl.getD cfg.sendGlobalPrivacyControl
    blockThirdPartyCookies := patch.blockThirdPartyCookies.getD cfg.blockThirdPartyCookies
    blockFingerprintingPermissions :=
      patch.blockFingerprintingPermissions.getD cfg.blockFingerprintingPermissions
    clearDataOnExit := patch.clearDataOnExit.getD cfg.clearDataOnExit }

/-- The process-wide mutable state the privacy-facing operations touch:
config, statistics, and the history/download lists cleared by
`clearDataByScope` (session caches are external effects, not modeled). -/
structure CoreState where
  privacyConfig : PrivacyConfig
  privacyStats : PrivacyStats
  browsingHistory : List String
  downloadItems : List String
deriving DecidableEq

/-- Result shape of `clearDataByScope`. -/
structure ClearDataResult where
  ok : Bool
  scope : Option String
  error : Option String
deriving DecidableEq

/-- Source `clearDataByScope`: validate the scope, clear the in-memory
history/download lists for the matching scopes; statistics are never
referenced. -/
def clearDataByScope (s : CoreState) (scope : String) : ClearDataResult × CoreState :=
  let value := jsToLower scope
  if !(value ∈ ["all", "cache", "cookies", "storage", "history", "downloads"]) then
    ({ ok := false, scope := none, error := some "Unknown clear-data scope." }, s)
  else
    let s1 := if value = "all" || value = "history" then
      { s with browsingHistory := [] } else s
    let s2 := if value = "all" || value = "downloads" then
      { s1 with downloadItems := [] } else s1
    ({ ok := true, scope := some value, error := none }, s2)

/-- Request interception as a `CoreState` transition. -/
def stepBeforeRequest (s : CoreState) (details : RequestDetails) :
    RequestDecision × CoreState :=
  ((onBeforeRequestHandler s.privacyConfig s.privacyStats details).1,
   { s with privacyStats := (onBeforeRequestHandler s.privacyConfig s.privacyStats details).2 })

/-- Header mutation as a `CoreState` transition. -/
def stepBeforeSendHeaders (s : CoreState) (details : RequestDetails)
    (headers : HeadersModel) : HeadersModel × CoreState :=
  ((onBeforeSendHeadersHandler s.privacyConfig s.privacyStats details headers).1,
   { s with privacyStats :=
      (onBeforeSendHeadersHandler s.privacyConfig s.privacyStats details headers).2 })

/-- Permission decision as a `CoreState` transition. -/
def stepPermissionRequest (s : CoreState) (permission : String) :
    Bool × CoreState :=
  ((permissionRequestHandler s.privacyConfig s.privacyStats permission).1,
   { s with privacyStats :=
      (permissionRequestHandler s.privacyConfig s.privacyStats permission).2 })

/-- Privacy-config patch as a `CoreState` transition. -/
def stepPatchPrivacyConfig (s : CoreState) (patch : PrivacyConfigPatch) : CoreState :=
  { s with privacyConfig := patchPrivacyConfig s.privacyConfig patch }

/- ===================== Version parsing and comparison ===================== -/

/-- Source `normalizeVersionFromTag`: trim, then strip one leading `v` or
`V` (the regex `/^v/i`). -/
def normalizeVersionFromTag (tagValue : String) : String :=
  let tag := jsTrim tagValue
  if tag = "" then ""
  else match tag.toList with
    | c :: rest => if c = 'v' || c = 'V' then String.mk rest else tag
    | [] => tag

/-- Decimal value of a digit run, as `Number` on a digit-only string. -/
def digitsToNat (ds : List Char) : Nat :=
  ds.foldl (fun acc c => acc * 10 + (c.toNat - 48)) 0

/-- Maximal digit runs of a character list (the accumulator holds the
current run reversed); models `split(/[^0-9]+/)` followed by dropping
empty parts. -/
def digitRunsAux : List Char → List Char → List (List Char)
  | [], acc => if acc.isEmpty then [] else [acc.reverse]
  | c :: rest, acc =>
    if c.isDigit then digitRunsAux rest (c :: acc)
    else if acc.isEmpty then digitRunsAux rest []
    else acc.reverse :: digitRunsAux rest []

/-- Source `parseVersionParts`: trim, split on non-digit runs, keep the
numeric parts (digit runs always parse to finite numbers). -/
def parseVersionParts (versionValue : String) : List Nat :=
  (digitRunsAux (jsTrim versionValue).toList []).map digitsToNat

/-- The indexed comparison loop of `compareVersions`
(`for (index = 0; index < maxLength; ...)`, missing components read as
0); the fuel counts the remaining iterations. -/
def compareVersionsLoop (left right : List Nat) : Nat → Nat → Int
  | 0, _ => 0
  | fuel + 1, index =>
    let leftValue := left.getD index 0
    let rightValue := right.getD index 0
    if leftValue > rightValue then 1
    else if leftValue < rightValue then -1
    else compareVersionsLoop left right fuel (index + 1)

/-- Source `compareVersions`: 0 when either side has no parsed numeric
parts, else the component-wise loop up to the longer length. -/
def compareVersions (leftVersion rightVersion : String) : Int :=
  let left := parseVersionParts leftVersion
  let right := parseVersionParts rightVersion
  if left.length = 0 ∨ right.length = 0 then 0
  else compareVersionsLoop left right (max left.length right.length) 0

/-- Modelled from the spec sentence for `compareVersions`: component-wise
numeric comparison of two parsed part lists, padding the shorter list
with trailing zeros, returning -1/0/1. -/
def specCompareParts : List Nat → List Nat → Int
  | [], [] => 0
  | [], b :: bs => if 0 < b then -1 else specCompareParts [] bs
  | a :: as, [] => if 0 < a then 1 else specCompareParts as []
  | a :: as, b :: bs =>
    if a > b then 1 else if a < b then -1 else specCompareParts as bs

/- ===================== GitHub release selection ===================== -/

/-- A release asset (`name`, `browser_download_url`). -/
structure GHAsset where
  name : String
  browser_download_url : String
deriving DecidableEq

/-- A release object from the GitHub releases index, with the publish
timestamp already put through
`Date.parse(published_at || created_at || createdAt) || 0` (so 0 stands
for a missing or unparseable timestamp). -/
structure GHRelease where
  tag_name : String
  draft : Bool
  prerelease : Bool
  publishedTime : Nat
  assets : List GHAsset
  html_url : String
deriving DecidableEq

/-- Source `findReleaseAsset`: first asset whose name matches
case-insensitively. -/
def findReleaseAsset (release : GHRelease) (assetName : String) : Option GHAsset :=
  release.assets.find? (fun asset => jsToLower asset.name = jsToLower assetName)

/-- Newest-first ordering on releases used by the sort comparator
`rightTime - leftTime`. -/
def ghLater (a b : GHRelease) : Prop := b.publishedTime ≤ a.publishedTime

instance : DecidableRel ghLater := fun _ _ => Nat.decLe _ _

instance : IsTotal GHRelease ghLater :=
  ⟨fun a b => (Nat.le_total b.publishedTime a.publishedTime).imp id id⟩

instance : IsTrans GHRelease ghLater := ⟨fun _ _ _ hab hbc => Nat.le_trans hbc hab⟩

/-- The in-place `selectionPool.sort(...)` call: JavaScript's stable sort
under the comparator `rightTime - leftTime`, modeled by the stable
insertion sort under `ghLater`. -/
def sortByPublishedDesc (pool : List GHRelease) : List GHRelease :=
  pool.insertionSort ghLater

/-- The draft filter of `fetchLatestGitHubRelease`
(`releases.filter((release) => release && !release.draft)`). -/
def nonDraftReleasesOf (releases : List GHRelease) : List GHRelease :=
  releases.filter (fun release => !release.draft)

/-- The prerelease filter of `fetchLatestGitHubRelease`. -/
def preferredReleasesOf (releases : List GHRelease) (allowPrerelease : Bool) :
    List GHRelease :=
  (nonDraftReleasesOf releases).filter
    (fun release => allowPrerelease || !release.prerelease)

/-- The selection pool of `fetchLatestGitHubRelease`: the prerelease
filter's output, falling back to the draft-free set when that filter
empties the pool. -/
def selectionPoolOf (releases : List GHRelease) (allowPrerelease : Bool) :
    List GHRelease :=
  if (preferredReleasesOf releases allowPrerelease).length > 0 then
    preferredReleasesOf releases allowPrerelease
  else nonDraftReleasesOf releases

/-- The selection logic of `fetchLatestGitHubRelease` after the HTTP
payload has been fetched and decoded: drop drafts, drop prereleases
unless allowed (falling back to the draft-free pool when that empties the
list), sort newest-first, take the head (`sorted[0] || null`). -/
def selectLatestGitHubRelease (releases : List GHRelease) (allowPrerelease : Bool) :
    Option GHRelease :=
  (sortByPublishedDesc (selectionPoolOf releases allowPrerelease)).head?

/- ===================== Tag sanitization and the target path ===================== -/

/-- A character admitted by the class `[a-z0-9._-]` with the `i` flag. -/
def isTagSafeChar (c : Char) : Bool :=
  (decide ('a' ≤ c) && decide (c ≤ 'z')) ||
  (decide ('A' ≤ c) && decide (c ≤ 'Z')) ||
  (decide ('0' ≤ c) && decide (c ≤ '9')) ||
  c = '.' || c = '_' || c = '-'

/-- The global replacement `/[^a-z0-9._-]+/gi → "_"`: each maximal run of
disallowed characters becomes a single underscore (the flag records
whether we are inside such a run). -/
def sanitizeTagChars : List Char → Bool → List Char
  | [], _ => []
  | c :: rest, inRun =>
    if isTagSafeChar c then c :: sanitizeTagChars rest false
    else if inRun then sanitizeTagChars rest true
    else '_' :: sanitizeTagChars rest true

/-- Source `sanitizeTagForPath`: trim, replace disallowed runs, fall back
to `"latest"` when empty. -/
def sanitizeTagForPath (tagValue : String) : String :=
  let normalized := String.mk (sanitizeTagChars (jsTrim tagValue).toList false)
  if normalized = "" then "latest" else normalized

/-- Node `path.join`-style normalization over path components on an
absolute base: empty and `.` components vanish, `..` pops the previous
component (or is dropped at the root). None of the joined components
contain separators in the updater's use. -/
def joinStep (acc : List String) (comp : String) : List String :=
  if comp = "" || comp = "." then acc
  else if comp = ".." then acc.dropLast
  else acc ++ [comp]

/-- Node `path.join`-style normalization over path components. -/
def normalizeJoin (components : List String) : List String :=
  components.foldl joinStep []

/-- Rendering of a component path to the string form the metadata
stores: a separator before every component, so any nonempty component
list renders to a nonempty string. -/
def renderPath (components : List String) : String :=
  components.foldl (fun acc comp => acc ++ "/" ++ comp) ""

/-- Source `getGitHubUpdateDownloadDir`: the `updates` directory inside
the per-user application data directory. -/
def getGitHubUpdateDownloadDir (userData : List String) : List String :=
  userData ++ ["updates"]

/-- Source `resolveGitHubUpdateTargetPath`:
`path.join(downloadDir, sanitizedTag, assetFileName)` as normalized
components. -/
def resolveGitHubUpdateTargetPath (userData : List String) (assetName tagValue : String) :
    List String :=
  normalizeJoin (getGitHubUpdateDownloadDir userData ++ [sanitizeTagForPath tagValue, assetName])

/-- Containment of a path strictly inside a directory: the directory's
components followed by at least one more component. -/
def withinDir (dir target : List String) : Prop :=
  ∃ rest, rest ≠ [] ∧ target = dir ++ rest

/- ===================== Artifact download (atomicity model) ===================== -/

/-- A flat filesystem model: existing files with their sizes in bytes. -/
structure FsModel where
  files : List (String × Nat)
deriving DecidableEq

/-- Models `fs.existsSync`. -/
def fsExists (fs : FsModel) (p : String) : Bool :=
  fs.files.any (fun kv => kv.1 = p)

/-- Models `fs.statSync(...).size`. -/
def fsSize (fs : FsModel) (p : String) : Option Nat :=
  (fs.files.find? (fun kv => kv.1 = p)).map Prod.snd

/-- Creating or overwriting a file with `n` bytes. -/
def fsWrite (fs : FsModel) (p : String) (n : Nat) : FsModel :=
  ⟨(fs.files.filter (fun kv => kv.1 ≠ p)) ++ [(p, n)]⟩

/-- Models `fs.unlinkSync`. -/
def fsRemove (fs : FsModel) (p : String) : FsModel :=
  ⟨fs.files.filter (fun kv => kv.1 ≠ p)⟩

/-- Models `fs.renameSync` (a no-op when the source file is absent). -/
def fsRename (fs : FsModel) (src dst : String) : FsModel :=
  match fsSize fs src with
  | some n => fsWrite (fsRemove fs src) dst n
  | none => fs

/-- The possible outcomes of the fetch/stream/rename sequence inside
`downloadGitHubAssetToPath`: the fetch itself throws, a non-2xx response,
an absent body, the stream pipeline failing after writing some partial
bytes to the temp file, the final rename failing after `n` bytes were
streamed, or full success with `n` bytes. -/
inductive FetchStreamOutcome where
  | fetchThrows (msg : String)
  | respNotOk (statusCode : Nat)
  | emptyBody
  | streamFails (partialBytes : Nat) (msg : String)
  | renameFails (bytes : Nat) (msg : String)
  | streamOk (bytes : Nat)
deriving DecidableEq

/-- Source `downloadGitHubAssetToPath`: stream the response body to
`targetPath + ".download"`, rename to `targetPath` on success and return
the final size; on a pipeline or rename failure delete the temp file
(best effort) and rethrow; failures before the pipeline starts touch no
file. -/
def downloadGitHubAssetToPath (fs : FsModel) (targetPath : String)
    (outcome : FetchStreamOutcome) : FsModel × Except String Nat :=
  let tempPath := targetPath ++ ".download"
  match outcome with
  | .fetchThrows msg => (fs, .error msg)
  | .respNotOk code =>
    (fs, .error ("GitHub asset download failed (" ++ toString code ++ ")."))
  | .emptyBody =>
    (fs, .error "GitHub asset download returned an empty response body.")
  | .streamFails partialBytes msg =>
    let fs1 := fsWrite fs tempPath partialBytes
    let fs2 := if fsExists fs1 tempPath then fsRemove fs1 tempPath else fs1
    (fs2, .error msg)
  | .renameFails bytes msg =>
    let fs1 := fsWrite fs tempPath bytes
    let fs2 := if fsExists fs1 tempPath then fsRemove fs1 tempPath else fs1
    (fs2, .error msg)
  | .streamOk bytes =>
    let fs1 := fsWrite fs tempPath bytes
    let fs2 := fsRename fs1 tempPath targetPath
    match fsSize fs2 targetPath with
    | some size => (fs2, .ok size)
    | none => (fs2, .error "ENOENT")

/- ===================== Update orchestrator state ===================== -/

/-- Source constant `GITHUB_UPDATE_ASSET_NAME`. -/
def GITHUB_UPDATE_ASSET_NAME : String := "update.zip"

/-- Source `GitHubUpdateMetadata` shape. -/
structure GitHubUpdateMetadata where
  lastTag : String
  filePath : String
  downloadedAt : Nat
  sizeBytes : Nat
  assetName : String
  releasePage : String
  lastAppliedTag : String
  appliedAt : Nat
deriving DecidableEq

/-- Source `createInitialGitHubUpdateMetadata`. -/
def createInitialGitHubUpdateMetadata : GitHubUpdateMetadata :=
  { lastTag := "", filePath := "", downloadedAt := 0, sizeBytes := 0
    assetName := GITHUB_UPDATE_ASSET_NAME, releasePage := ""
    lastAppliedTag := "", appliedAt := 0 }

/-- The `UpdateStatus` record fields the release-archive backend patches
(`currentVersion`, `isPackaged`, `checkedAt` and `updatedAt` are
re-stamped from the live app and wall clock on every mutation and are not
modeled). -/
structure UpdateStatusModel where
  status : String
  message : String
  availableVersion : Option String
  downloadedVersion : Option String
  updateFilePath : Option String
  releasePage : Option String
  progressPercent : Nat
  error : Option String
deriving DecidableEq

/-- The updater-side mutable state: artifact metadata, the files present
on disk (as rendered paths), the status record, and the executables the
process has spawned detached. -/
structure UpdaterState where
  metadata : GitHubUpdateMetadata
  fsFiles : List String
  status : UpdateStatusModel
  launched : List String
deriving DecidableEq

/-- Environment of one `checkGitHubReleaseZipUpdate` run: the outcome of
`fetchLatestGitHubRelease` (either a thrown error or the selected
release), the running app version, the resolved asset name and tags-page
URL, the user-data directory, the outcome `downloadGitHubAssetToPath`
would produce if invoked, and the clock. -/
structure CheckEnv where
  fetchResult : Except String (Option GHRelease)
  appVersion : String
  assetName : String
  tagsPageURL : String
  userData : List String
  downloadResult : Except String Nat
  now : Nat

/-- Options of `checkGitHubReleaseZipUpdate`. -/
structure CheckOpts where
  manual : Bool
  download : Bool
  forceDownload : Bool
deriving DecidableEq

/-- The structured return value of `checkGitHubReleaseZipUpdate`
(mirroring the result objects of each return path). -/
inductive CheckResult where
  | fetchError (error : String)
  | noReleases
  | upToDate (tag filePath : String)
  | assetMissing (tag : String)
  | alreadyDownloaded (tag : String) (alreadyApplied : Bool) (filePath : String)
  | available (tag downloadURL : String)
  | downloaded (tag filePath : String) (sizeBytes : Nat)
  | downloadError (error : String)
deriving DecidableEq

/-- Source `checkGitHubReleaseZipUpdate`. Returns the result, the updated
state, and whether a network download was attempted. -/
def checkGitHubReleaseZipUpdate (s : UpdaterState) (env : CheckEnv) (opts : CheckOpts) :
    CheckResult × UpdaterState × Bool :=
  let assetName := env.assetName
  let tagsPageURL := env.tagsPageURL
  let s0 := { s with status := { s.status with
      status := "checking"
      message := "Checking GitHub release tags for " ++ assetName ++ "..."
      availableVersion := none
      downloadedVersion := none
      updateFilePath := none
      releasePage := some tagsPageURL
      progressPercent := 0
      error := none } }
  match env.fetchResult with
  | .error msg =>
    (.fetchError msg,
     { s0 with status := { s0.status with
         status := "error"
         message := "Failed to fetch GitHub release tags."
         error := some msg } },
     false)
  | .ok fetched =>
    match fetched with
    | none =>
      (.noReleases,
       { s0 with status := { s0.status with
           status := "idle"
           message := "No GitHub release tags found."
           error := none } },
       false)
    | some release =>
      if release.tag_name = "" then
        (.noReleases,
         { s0 with status := { s0.status with
             status := "idle"
             message := "No GitHub release tags found."
             error := none } },
         false)
      else
        let tag := jsTrim release.tag_name
        let normalizedVersion := normalizeVersionFromTag tag
        let normalizedCurrentVersion := normalizeVersionFromTag env.appVersion
        let releasePage := if release.html_url ≠ "" then release.html_url else tagsPageURL
        let displayVersion := if normalizedVersion = "" then tag else normalizedVersion
        if (parseVersionParts normalizedVersion).length > 0 ∧
            (parseVersionParts normalizedCurrentVersion).length > 0 ∧
            compareVersions normalizedVersion normalizedCurrentVersion ≤ 0 then
          (.upToDate tag s.metadata.filePath,
           { s0 with status := { s0.status with
               status := "idle"
               message := "You are already on version " ++ env.appVersion ++ "."
               availableVersion := some displayVersion
               downloadedVersion := some displayVersion
               updateFilePath := if s.metadata.filePath = "" then none
                 else some s.metadata.filePath
               releasePage := some releasePage
               progressPercent := 100
               error := none } },
           false)
        else
          let assetURL := (findReleaseAsset release assetName).bind
            (fun asset => if asset.browser_download_url = "" then none
              else some asset.browser_download_url)
          match assetURL with
          | none =>
            let msg := "Latest tag " ++ tag ++ " has no " ++ assetName ++ " asset."
            (.assetMissing tag,
             { s0 with status := { s0.status with
                 status := "error"
                 message := msg
                 availableVersion := some displayVersion
                 releasePage := some releasePage
                 error := some msg } },
             false)
          | some downloadURL =>
            if (s.metadata.lastTag = tag ∧ s.metadata.filePath ≠ "" ∧
                s.metadata.filePath ∈ s.fsFiles) ∧ opts.forceDownload = false then
              let alreadyApplied : Bool :=
                decide (tag ≠ "") && decide (s.metadata.lastAppliedTag = tag)
              (.alreadyDownloaded tag alreadyApplied s.metadata.filePath,
               { s0 with status := { s0.status with
                   status := if alreadyApplied then "idle" else "downloaded"
                   message := if alreadyApplied then
                       "Latest tag " ++ tag ++ " is already applied."
                     else "Latest tag " ++ tag ++ " is already downloaded."
                   availableVersion := some displayVersion
                   downloadedVersion := some displayVersion
                   updateFilePath := some s.metadata.filePath
                   releasePage := some releasePage
                   progressPercent := 100
                   error := none } },
               false)
            else if opts.download = false then
              (.available tag downloadURL,
               { s0 with status := { s0.status with
                   status := "available"
                   message := "GitHub update " ++ tag ++ " is available."
                   availableVersion := some displayVersion
                   downloadedVersion := none
                   updateFilePath := none
                   releasePage := some releasePage
                   progressPercent := 0
                   error := none } },
               false)
            else
              let s1 := { s0 with status := { s0.status with
                  status := "downloading"
                  message := "Downloading " ++ assetName ++ " from " ++ tag ++ "..."
                  availableVersion := some displayVersion
                  downloadedVersion := none
                  updateFilePath := none
                  releasePage := some releasePage
                  progressPercent := 0
                  error := none } }
              let destinationPath :=
                renderPath (resolveGitHubUpdateTargetPath env.userData assetName tag)
              match env.downloadResult with
              | .ok sizeBytes =>
                let md := { s1.metadata with
                    lastTag := tag
                    filePath := destinationPath
                    downloadedAt := env.now
                    sizeBytes := sizeBytes
                    assetName := assetName
                    releasePage := releasePage }
                (.downloaded tag destinationPath sizeBytes,
                 { s1 with
                     metadata := md
                     fsFiles := destinationPath :: s1.fsFiles
                     status := { s1.status with
                       status := "downloaded"
                       message := "Downloaded " ++ assetName ++ " from " ++ tag ++ "."
                       availableVersion := some displayVersion
                       downloadedVersion := some displayVersion
                       updateFilePath := some destinationPath
                       releasePage := some releasePage
                       progressPercent := 100
                       error := none } },
                 true)
              | .error msg =>
                (.downloadError msg,
                 { s1 with status := { s1.status with
                     status := "error"
                     message := "Failed to download update.zip from GitHub."
                     availableVersion := some displayVersion
                     releasePage := some releasePage
                     error := some msg } },
                 true)

/- ===================== Archive installer (apply) ===================== -/

/-- Node `path.basename` over `/`-separated rendered paths. -/
def basename (p : String) : String :=
  (splitString '/' p).getLastD p

/-- Node `path.extname`: the suffix from the last dot of the basename,
empty when there is no dot or the only dot leads the name. -/
def extname (p : String) : String :=
  let name := basename p
  let cs := name.toList
  let afterLast := cs.reverse.takeWhile (fun c => c ≠ '.')
  if afterLast.length = cs.length then ""
  else if cs.length - afterLast.length - 1 = 0 then ""
  else String.mk (cs.drop (cs.length - afterLast.length - 1))

/-- Substring occurrence test on character lists. -/
def containsSeq (sub : List Char) : List Char → Bool
  | [] => isPrefixOfList sub []
  | c :: rest => isPrefixOfList sub (c :: rest) || containsSeq sub rest

/-- JS `String.prototype.includes`. -/
def strIncludes (s sub : String) : Bool :=
  containsSeq sub.toList s.toList

/-- Source `scoreLauncherCandidate`. -/
def scoreLauncherCandidate (filePath : String) : Int :=
  let name := jsToLower (basename filePath)
  if strIncludes name "uninstall" then -100
  else
    let score : Int := 0
    let score := if strIncludes name "setup" then score + 60 else score
    let score := if strIncludes name "installer" then score + 50 else score
    let score := if strIncludes name "update" then score + 40 else score
    let score := if strIncludes name "portable" then score + 30 else score
    let score := if strIncludes name "bastion" then score + 20 else score
    let ext := extname name
    if ext = ".exe" then score + 25
    else if ext = ".cmd" || ext = ".bat" then score + 10
    else score - 10

/-- Ordering used by the candidate sort: higher score first, shorter path
first among equal scores (the comparator
`score(right) - score(left)` / `left.length - right.length`). -/
def launcherBefore (a b : String) : Prop :=
  scoreLauncherCandidate b < scoreLauncherCandidate a ∨
    (scoreLauncherCandidate b = scoreLauncherCandidate a ∧ a.length ≤ b.length)

instance : DecidableRel launcherBefore := fun a b => by
  unfold launcherBefore
  infer_instance

/-- Source `pickUpdateLauncherFromExtractedFiles`: filter to
`.exe`/`.cmd`/`.bat`, stable-sort by the comparator, take the head. -/
def pickUpdateLauncherFromExtractedFiles (files : List String) : Option String :=
  let candidates := files.filter (fun filePath =>
    let ext := jsToLower (extname filePath)
    ext = ".exe" || ext = ".cmd" || ext = ".bat")
  if candidates.isEmpty then none
  else (candidates.insertionSort launcherBefore).head?

/-- Source `resolveGitHubUpdateStagingDir`. -/
def resolveGitHubUpdateStagingDir (userData : List String) (tagValue : String) :
    List String :=
  normalizeJoin (getGitHubUpdateDownloadDir userData ++ ["staged", sanitizeTagForPath tagValue])

/-- Environment of one `applyGitHubReleaseZipUpdate` run: the platform
test, the outcome of the PowerShell `Expand-Archive` step, the files
`collectFilesRecursive` reports in the staging directory after a
successful extraction, the user-data directory, and the clock. -/
structure ApplyEnv where
  platformWin32 : Bool
  extractionResult : Except String Unit
  extractedFiles : List String
  userData : List String
  now : Nat

/-- The structured return value of `applyGitHubReleaseZipUpdate`. -/
inductive ApplyResult where
  | notWindows (error : String)
  | noZip (error : String)
  | skippedAlreadyApplied (tag : String)
  | applied (tag launcherPath stagedPath : String)
  | applyError (error : String)
deriving DecidableEq

/-- Source `applyGitHubReleaseZipUpdate` with the option object already
merged (`manual`, `tag`, `zipPath`, `releasePage`): platform gate, zip
presence gate, the non-manual already-applied no-op, then staging,
extraction, launcher pick, detached spawn and metadata update. -/
def applyGitHubReleaseZipUpdate (s : UpdaterState) (env : ApplyEnv)
    (manual : Bool) (tagArg zipPathArg releasePageArg : String) :
    ApplyResult × UpdaterState :=
  let tag := jsTrim tagArg
  let zipPath := jsTrim zipPathArg
  let releasePage := jsTrim releasePageArg
  if !env.platformWin32 then
    (.notWindows "Automatic ZIP apply is currently implemented for Windows only.", s)
  else if zipPath = "" ∨ ¬(zipPath ∈ s.fsFiles) then
    (.noZip "No downloaded update.zip was found to apply.", s)
  else if ¬manual ∧ tag ≠ "" ∧ s.metadata.lastAppliedTag = tag then
    (.skippedAlreadyApplied tag, s)
  else
    let stageDir := renderPath (resolveGitHubUpdateStagingDir env.userData
      (if tag = "" then "latest" else tag))
    let normalizedTag := normalizeVersionFromTag tag
    let s1 := { s with status := { s.status with
        status := "installing"
        message := "Applying " ++ basename zipPath ++ "..."
        availableVersion := if tag ≠ "" then
            some (if normalizedTag = "" then tag else normalizedTag)
          else s.status.availableVersion
        updateFilePath := some zipPath
        releasePage := if releasePage ≠ "" then some releasePage else s.status.releasePage
        progressPercent := 100
        error := none } }
    match env.extractionResult with
    | .error msg =>
      (.applyError msg,
       { s1 with status := { s1.status with
           status := "error"
           message := "Failed to apply downloaded update.zip."
           error := some msg } })
    | .ok _ =>
      match pickUpdateLauncherFromExtractedFiles env.extractedFiles with
      | none =>
        let msg := "No launcher executable (.exe/.cmd/.bat) found in update.zip."
        (.applyError msg,
         { s1 with status := { s1.status with
             status := "error"
             message := "Failed to apply downloaded update.zip."
             error := some msg } })
      | some launcherPath =>
        let md := { s1.metadata with
            lastAppliedTag := tag
            appliedAt := env.now
            releasePage := if releasePage ≠ "" then releasePage
              else s1.metadata.releasePage }
        (.applied tag launcherPath stageDir,
         { s1 with
             metadata := md
             launched := launcherPath :: s1.launched
             status := { s1.status with
               status := "installing"
               message := "Launching updater: " ++ basename launcherPath
               updateFilePath := some zipPath
               error := none } })

/- ===================== Helper lemmas: version comparison ===================== -/

theorem getD_tail_nat (l : List Nat) (i : Nat) :
    l.getD (i + 1) 0 = l.tail.getD i 0 := by
  cases l <;> simp [List.getD]

theorem compareVersionsLoop_shift (fuel : Nat) :
    ∀ (idx : Nat) (l r : List Nat),
      compareVersionsLoop l r fuel (idx + 1) =
        compareVersionsLoop l.tail r.tail fuel idx := by
  induction fuel with
  | zero => intro idx l r; simp [compareVersionsLoop]
  | succ n ih =>
    intro idx l r
    simp only [compareVersionsLoop, getD_tail_nat]
    rw [ih]

theorem compareVersionsLoop_eq_specCompareParts (fuel : Nat) :
    ∀ (l r : List Nat), l.length ≤ fuel → r.length ≤ fuel →
      compareVersionsLoop l r fuel 0 = specCompareParts l r := by
  induction fuel with
  | zero =>
    intro l r hl hr
    have hl0 : l = [] := List.eq_nil_of_length_eq_zero (Nat.le_zero.mp hl)
    have hr0 : r = [] := List.eq_nil_of_length_eq_zero (Nat.le_zero.mp hr)
    simp [compareVersionsLoop, hl0, hr0, specCompareParts]
  | succ n ih =>
    intro l r hl hr
    cases l with
    | nil =>
      cases r with
      | nil =>
        simp only [compareVersionsLoop, List.getD_nil, lt_self_iff_false, gt_iff_lt,
          if_false, specCompareParts]
        rw [compareVersionsLoop_shift]
        simp only [List.tail_nil]
        rw [ih [] [] (by simp) (by simp)]
        simp [specCompareParts]
      | cons b bs =>
        rcases Nat.eq_zero_or_pos b with hb | hb
        · subst hb
          simp only [compareVersionsLoop, List.getD_nil, List.getD_cons_zero,
            lt_self_iff_false, gt_iff_lt, if_false, specCompareParts]
          rw [compareVersionsLoop_shift]
          simp only [List.tail_nil, List.tail_cons]
          rw [ih [] bs (by simp) (by simpa using Nat.le_of_succ_le_succ hr)]
        · have hno : ¬(0 > b) := by omega
          simp [compareVersionsLoop, List.getD, specCompareParts, hb, hno]
    | cons a as =>
      cases r with
      | nil =>
        rcases Nat.eq_zero_or_pos a with ha | ha
        · subst ha
          simp only [compareVersionsLoop, List.getD_nil, List.getD_cons_zero,
            lt_self_iff_false, gt_iff_lt, if_false, specCompareParts]
          rw [compareVersionsLoop_shift]
          simp only [List.tail_nil, List.tail_cons]
          rw [ih as [] (by simpa using Nat.le_of_succ_le_succ hl) (by simp)]
        · have hno : ¬(a < 0) := by omega
          simp [compareVersionsLoop, List.getD, specCompareParts, ha, hno]
      | cons b bs =>
        by_cases hgt : a > b
        · simp [compareVersionsLoop, List.getD, specCompareParts, hgt]
        · by_cases hlt : a < b
          · simp [compareVersionsLoop, List.getD, specCompareParts, hgt, hlt]
          · have hab : a = b := by omega
            subst hab
            simp only [compareVersionsLoop, List.getD_cons_zero, lt_self_iff_false,
              gt_iff_lt, if_false, specCompareParts]
            rw [compareVersionsLoop_shift]
            simp only [List.tail_cons]
            rw [ih as bs (by simpa using Nat.le_of_succ_le_succ hl)
              (by simpa using Nat.le_of_succ_le_succ hr)]

theorem specCompareParts_range : ∀ l r : List Nat,
    specCompareParts l r = -1 ∨ specCompareParts l r = 0 ∨ specCompareParts l r = 1 := by
  intro l
  induction l with
  | nil =>
    intro r
    induction r with
    | nil => simp [specCompareParts]
    | cons b bs ihb => by_cases hb : 0 < b <;> simp [specCompareParts, hb, ihb]
  | cons a as iha =>
    intro r
    cases r with
    | nil => by_cases ha : 0 < a <;> simp [specCompareParts, ha, iha []]
    | cons b bs =>
      by_cases hgt : a > b
      · simp [specCompareParts, hgt]
      · by_cases hlt : a < b <;> simp [specCompareParts, hgt, hlt, iha bs]

theorem compareVersions_eq_spec (a b : String) :
    compareVersions a b =
      if parseVersionParts a = [] ∨ parseVersionParts b = [] then 0
      else specCompareParts (parseVersionParts a) (parseVersionParts b) := by
  simp only [compareVersions]
  by_cases hl : parseVersionParts a = []
  · simp [hl]
  · by_cases hr : parseVersionParts b = []
    · simp [hl, hr]
    · have hl' : (parseVersionParts a).length ≠ 0 := by simpa using hl
      have hr' : (parseVersionParts b).length ≠ 0 := by simpa using hr
      rw [if_neg (by simp [hl', hr']), if_neg (by simp [hl, hr])]
      exact compareVersionsLoop_eq_specCompareParts _ _ _
        (Nat.le_max_left _ _) (Nat.le_max_right _ _)

/-- Claim C6: `compareVersions` splits each version on non-digit runs,
compares the numeric components pairwise padding missing trailing
components with 0 and returns -1/0/1; it returns 0 whenever either side
has zero parsed numeric parts; in particular
`compareVersions "1.2.0" "1.10.0" = -1`,
`compareVersions "2.0" "2.0.0" = 0`, and
`compareVersions "abc" "1.0" = 0`. -/
theorem compareVersions_componentwise_with_failsafe :
    (∀ a b : String,
      compareVersions a b =
        if parseVersionParts a = [] ∨ parseVersionParts b = [] then 0
        else specCompareParts (parseVersionParts a) (parseVersionParts b))
    ∧ (∀ a b : String, compareVersions a b = -1 ∨ compareVersions a b = 0
        ∨ compareVersions a b = 1)
    ∧ compareVersions "1.2.0" "1.10.0" = -1
    ∧ compareVersions "2.0" "2.0.0" = 0
    ∧ compareVersions "abc" "1.0" = 0
    ∧ parseVersionParts "abc" = [] ∧ parseVersionParts "1.10.0" = [1, 10, 0] := by
  refine ⟨compareVersions_eq_spec, ?_, by decide, by decide, by decide, by decide, by decide⟩
  intro a b
  rw [compareVersions_eq_spec a b]
  split
  · simp
  · exact specCompareParts_range _ _

/- ===================== Claim C5: block precedence ===================== -/

/-- Claim C5: in the per-request decision, tracker blocking takes
precedence over HTTPS upgrading: whenever the block condition holds
(in particular when the upgrade condition also holds), the decision is
cancel and `blockedRequests` is incremented, never a redirect. -/
theorem block_takes_precedence_over_upgrade
    (cfg : PrivacyConfig) (stats : PrivacyStats) (details : RequestDetails)
    (hblock : shouldBlockTrackerRequest cfg details = true)
    (_hupflag : cfg.upgradeHttps = true)
    (_hup : shouldUpgradeToHttps details.url = true) :
    onBeforeRequestHandler cfg stats details =
      (.cancel, incrementPrivacyStat stats "blockedRequests") := by
  simp [onBeforeRequestHandler, hblock]

theorem block_takes_precedence_over_upgrade_witness :
    shouldBlockTrackerRequest DEFAULT_PRIVACY_CONFIG
      { url := "http://doubleclick.net/x", resourceType := "script"
        initiator := some "https://a.com" } = true
    ∧ DEFAULT_PRIVACY_CONFIG.upgradeHttps = true
    ∧ shouldUpgradeToHttps "http://doubleclick.net/x" = true
    ∧ onBeforeRequestHandler DEFAULT_PRIVACY_CONFIG
        { blockedRequests := 0, upgradedToHttps := 0, strippedCookieHeaders := 0
          blockedPermissions := 0, startedAt := 0 }
        { url := "http://doubleclick.net/x", resourceType := "script"
          initiator := some "https://a.com" } =
      (.cancel,
       { blockedRequests := 1, upgradedToHttps := 0, strippedCookieHeaders := 0
         blockedPermissions := 0, startedAt := 0 }) :=
  ⟨by decide, by decide, by decide,
   block_takes_precedence_over_upgrade _ _ _ (by decide) (by decide) (by decide)⟩

/- ===================== Claim C9: permission gate ===================== -/

/-- Claim C9: the permission decision is a pure function of the config
flag and the capability name: fingerprinting-risk capabilities are
denied (counting the denial) when `blockFingerprintingPermissions` is
on; otherwise a capability is allowed iff it is in the fixed allow-list,
and every other denial also increments `blockedPermissions`; the check
handler always agrees with the request handler. -/
theorem permission_gate_pure_decision
    (cfg : PrivacyConfig) (stats : PrivacyStats) (permission : String) :
    ((cfg.blockFingerprintingPermissions = true ∧
        permission ∈ FINGERPRINTING_PERMISSIONS) →
      permissionRequestHandler cfg stats permission =
        (false, incrementPrivacyStat stats "blockedPermissions"))
    ∧ (¬(cfg.blockFingerprintingPermissions = true ∧
          permission ∈ FINGERPRINTING_PERMISSIONS) →
        ((permissionRequestHandler cfg stats permission).1 = true ↔
          permission ∈ ALLOWED_PERMISSIONS)
        ∧ (permission ∉ ALLOWED_PERMISSIONS →
            permissionRequestHandler cfg stats permission =
              (false, incrementPrivacyStat stats "blockedPermissions")))
    ∧ permissionCheckHandler cfg permission =
        (permissionRequestHandler cfg stats permission).1 := by
  refine ⟨?_, ?_, ?_⟩
  · rintro ⟨hflag, hmem⟩
    simp [permissionRequestHandler, hflag, hmem]
  · intro hnot
    have hcond : (cfg.blockFingerprintingPermissions &&
        decide (permission ∈ FINGERPRINTING_PERMISSIONS)) ≠ true := by
      intro h
      exact hnot (by simpa [Bool.and_eq_true, decide_eq_true_eq] using h)
    constructor
    · simp [permissionRequestHandler, hcond]
    · intro hnotallowed
      simp [permissionRequestHandler, hcond, hnotallowed]
  · by_cases hflag : cfg.blockFingerprintingPermissions = true <;>
      by_cases hmem : permission ∈ FINGERPRINTING_PERMISSIONS <;>
      by_cases hal : permission ∈ ALLOWED_PERMISSIONS <;>
      simp [permissionRequestHandler, permissionCheckHandler, hflag, hmem, hal]

theorem permission_gate_pure_decision_witness :
    (DEFAULT_PRIVACY_CONFIG.blockFingerprintingPermissions = true ∧
      "idle-detection" ∈ FINGERPRINTING_PERMISSIONS)
    ∧ permissionRequestHandler DEFAULT_PRIVACY_CONFIG
        { blockedRequests := 0, upgradedToHttps := 0, strippedCookieHeaders := 0
          blockedPermissions := 0, startedAt := 0 } "idle-detection" =
      (false,
       { blockedRequests := 0, upgradedToHttps := 0, strippedCookieHeaders := 0
         blockedPermissions := 1, startedAt := 0 }) :=
  ⟨by decide,
   (permission_gate_pure_decision DEFAULT_PRIVACY_CONFIG
     { blockedRequests := 0, upgradedToHttps := 0, strippedCookieHeaders := 0
       blockedPermissions := 0, startedAt := 0 } "idle-detection").1 (by decide)⟩

/- ===================== Claim C10: counter monotonicity ===================== -/

/-- One-step counter evolution: each of the four counters is unchanged
or incremented by exactly one. -/
def statsNonDecreasingStep (a b : PrivacyStats) : Prop :=
  (b.blockedRequests = a.blockedRequests ∨ b.blockedRequests = a.blockedRequests + 1)
  ∧ (b.upgradedToHttps = a.upgradedToHttps ∨ b.upgradedToHttps = a.upgradedToHttps + 1)
  ∧ (b.strippedCookieHeaders = a.strippedCookieHeaders ∨
      b.strippedCookieHeaders = a.strippedCookieHeaders + 1)
  ∧ (b.blockedPermissions = a.blockedPermissions ∨
      b.blockedPermissions = a.blockedPermissions + 1)

theorem statsNonDecreasingStep_refl (a : PrivacyStats) : statsNonDecreasingStep a a := by
  simp [statsNonDecreasingStep]

theorem statsNonDecreasingStep_increment (a : PrivacyStats) (key : String) :
    statsNonDecreasingStep a (incrementPrivacyStat a key) := by
  unfold incrementPrivacyStat
  repeat' split
  all_goals simp [statsNonDecreasingStep]

theorem onBeforeRequestHandler_statsStep
    (cfg : PrivacyConfig) (stats : PrivacyStats) (details : RequestDetails) :
    statsNonDecreasingStep stats (onBeforeRequestHandler cfg stats details).2 := by
  simp only [onBeforeRequestHandler]
  split_ifs
  all_goals
    first
    | exact statsNonDecreasingStep_increment _ _
    | exact statsNonDecreasingStep_refl _

theorem onBeforeSendHeadersHandler_statsStep
    (cfg : PrivacyConfig) (stats : PrivacyStats) (details : RequestDetails)
    (headers : HeadersModel) :
    statsNonDecreasingStep stats
      (onBeforeSendHeadersHandler cfg stats details headers).2 := by
  simp only [onBeforeSendHeadersHandler]
  split_ifs
  all_goals
    first
    | exact statsNonDecreasingStep_increment _ _
    | exact statsNonDecreasingStep_refl _

theorem permissionRequestHandler_statsStep
    (cfg : PrivacyConfig) (stats : PrivacyStats) (permission : String) :
    statsNonDecreasingStep stats (permissionRequestHandler cfg stats permission).2 := by
  simp only [permissionRequestHandler]
  split_ifs
  all_goals
    first
    | exact statsNonDecreasingStep_increment _ _
    | exact statsNonDecreasingStep_refl _

theorem clearDataByScope_stats_unchanged (s : CoreState) (scope : String) :
    (clearDataByScope s scope).2.privacyStats = s.privacyStats := by
  simp only [clearDataByScope]
  split_ifs <;> rfl

/-- Claim C10: every `PrivacyStats` counter (`blockedRequests`,
`upgradedToHttps`, `strippedCookieHeaders`, `blockedPermissions`) is
monotonically non-decreasing across the core operations: request
interception, header mutation, permission decision, config patch and
clear-data each leave every counter unchanged or increment it by one,
and none of them decreases a counter. -/
theorem privacy_counters_non_decreasing
    (s : CoreState) (details : RequestDetails) (headers : HeadersModel)
    (patch : PrivacyConfigPatch) (scope : String) (permission : String) :
    statsNonDecreasingStep s.privacyStats (stepBeforeRequest s details).2.privacyStats
    ∧ statsNonDecreasingStep s.privacyStats
        (stepBeforeSendHeaders s details headers).2.privacyStats
    ∧ statsNonDecreasingStep s.privacyStats
        (stepPermissionRequest s permission).2.privacyStats
    ∧ (stepPatchPrivacyConfig s patch).privacyStats = s.privacyStats
    ∧ (clearDataByScope s scope).2.privacyStats = s.privacyStats :=
  ⟨onBeforeRequestHandler_statsStep _ _ _,
   onBeforeSendHeadersHandler_statsStep _ _ _ _,
   permissionRequestHandler_statsStep _ _ _,
   rfl,
   clearDataByScope_stats_unchanged _ _⟩

/- ===================== Claim C4: Referer handling ===================== -/

theorem hasHeader_iff (h : HeadersModel) (n : String) :
    hasHeader h n = true ↔ ∃ kv ∈ h, jsToLower kv.1 = jsToLower n := by
  simp [hasHeader, findHeaderKey, List.find?_isSome]

theorem hasHeader_setHeader_of (h : HeadersModel) (n v n' : String)
    (hh : hasHeader h n' = true) : hasHeader (setHeader h n v) n' = true := by
  rw [hasHeader_iff] at hh ⊢
  obtain ⟨kv, hmem, hkey⟩ := hh
  unfold setHeader
  cases hfind : findHeaderKey h n with
  | none => exact ⟨kv, List.mem_append_left _ hmem, hkey⟩
  | some key =>
    refine ⟨if kv.1 = key then (kv.1, v) else kv, List.mem_map_of_mem _ hmem, ?_⟩
    by_cases hk : kv.1 = key
    · simpa [hk] using hk ▸ hkey
    · simpa [hk] using hkey

theorem hasHeader_removeHeader_of (h : HeadersModel) (n n' : String)
    (hne : jsToLower n' ≠ jsToLower n)
    (hh : hasHeader h n' = true) : hasHeader (removeHeader h n) n' = true := by
  rw [hasHeader_iff] at hh ⊢
  obtain ⟨kv, hmem, hkey⟩ := hh
  unfold removeHeader
  cases hfind : findHeaderKey h n with
  | none => exact ⟨kv, hmem, hkey⟩
  | some key =>
    have hkeyn : jsToLower key = jsToLower n := by
      unfold findHeaderKey at hfind
      cases hf2 : h.find? (fun kv => jsToLower kv.1 = jsToLower n) with
      | none => rw [hf2] at hfind; simp at hfind
      | some kv2 =>
        rw [hf2] at hfind
        simp only [Option.map_some'] at hfind
        have hp := List.find?_some hf2
        simp only [decide_eq_true_eq] at hp
        have hkk := Option.some.inj hfind
        rw [← hkk]
        exact hp
    have hkne : kv.1 ≠ key := by
      intro he
      apply hne
      rw [← hkey, he, hkeyn]
    exact ⟨kv, List.mem_filter.mpr ⟨hmem, by simpa using hkne⟩, hkey⟩

/-- Claim C4 (divergence evidence): the header-mutation stage of the
main process never removes a `Referer` header, for every configuration,
request and header set (there is no `stripThirdPartyReferer` flag and no
Referer logic in the source handler), and `incrementPrivacyStat` on the
key `strippedRefererHeaders` is a no-op because the source stats object
has no such counter. -/
theorem referer_never_stripped :
    (∀ (cfg : PrivacyConfig) (stats : PrivacyStats) (details : RequestDetails)
        (headers : HeadersModel),
      hasHeader headers "Referer" = true →
      hasHeader (onBeforeSendHeadersHandler cfg stats details headers).1 "Referer" = true)
    ∧ (∀ stats : PrivacyStats,
        incrementPrivacyStat stats "strippedRefererHeaders" = stats) := by
  constructor
  · intro cfg stats details headers hh
    simp only [onBeforeSendHeadersHandler]
    split_ifs
    all_goals
      repeat
        first
        | exact hh
        | apply hasHeader_setHeader_of
        | apply hasHeader_removeHeader_of _ _ _ (by decide)
  · intro stats
    rfl

theorem referer_never_stripped_witness :
    hasHeader [("Referer", "https://a.com/page")] "Referer" = true
    ∧ hasHeader (onBeforeSendHeadersHandler DEFAULT_PRIVACY_CONFIG
        { blockedRequests := 0, upgradedToHttps := 0, strippedCookieHeaders := 0
          blockedPermissions := 0, startedAt := 0 }
        { url := "https://b.com/beacon", resourceType := "ping"
          initiator := some "https://a.com" }
        [("Referer", "https://a.com/page")]).1 "Referer" = true :=
  ⟨by decide,
   referer_never_stripped.1 DEFAULT_PRIVACY_CONFIG
     { blockedRequests := 0, upgradedToHttps := 0, strippedCookieHeaders := 0
       blockedPermissions := 0, startedAt := 0 }
     { url := "https://b.com/beacon", resourceType := "ping"
       initiator := some "https://a.com" }
     [("Referer", "https://a.com/page")] (by decide)⟩

/- ===================== Claim C1: download atomicity ===================== -/

theorem append_download_ne (s : String) : s ++ ".download" ≠ s := by
  intro h
  have hlen := congrArg String.length h
  have h9 : (".download" : String).length = 9 := rfl
  rw [String.length_append, h9] at hlen
  omega

theorem any_key_filter_ne (l : List (String × Nat)) (p : String) :
    (l.filter (fun kv => kv.1 ≠ p)).any (fun kv => kv.1 = p) = false := by
  induction l with
  | nil => rfl
  | cons kv rest ih => by_cases h : kv.1 = p <;> simp [List.filter_cons, h, ih]

theorem any_key_filter_le (l : List (String × Nat)) (p q : String)
    (h : l.any (fun kv => kv.1 = q) = false) :
    (l.filter (fun kv => kv.1 ≠ p)).any (fun kv => kv.1 = q) = false := by
  induction l with
  | nil => rfl
  | cons kv rest ih =>
    simp only [List.any_cons, Bool.or_eq_false_iff, decide_eq_false_iff_not] at h
    by_cases hp : kv.1 = p
    · simpa [List.filter_cons, hp] using ih h.2
    · simpa [List.filter_cons, hp, List.any_cons, h.1] using ih h.2

theorem find_key_filter_append (l : List (String × Nat)) (p : String) (n : Nat) :
    (l.filter (fun kv => kv.1 ≠ p) ++ [(p, n)]).find? (fun kv => kv.1 = p) =
      some (p, n) := by
  induction l with
  | nil => simp
  | cons kv rest ih =>
    by_cases h : kv.1 = p
    · simpa [List.filter_cons, h] using ih
    · simpa [List.filter_cons, h, List.find?_cons_of_neg] using ih

theorem fsSize_fsWrite_self (fs : FsModel) (p : String) (n : Nat) :
    fsSize (fsWrite fs p n) p = some n := by
  simp [fsSize, fsWrite, find_key_filter_append]

theorem fsExists_fsWrite_self (fs : FsModel) (p : String) (n : Nat) :
    fsExists (fsWrite fs p n) p = true := by
  simp [fsExists, fsWrite, List.any_append]

theorem fsExists_fsRemove_self (fs : FsModel) (p : String) :
    fsExists (fsRemove fs p) p = false := by
  simpa [fsExists, fsRemove] using any_key_filter_ne fs.files p

theorem fsExists_fsRemove_of_not (fs : FsModel) (p q : String)
    (h : fsExists fs q = false) : fsExists (fsRemove fs p) q = false := by
  simpa [fsExists, fsRemove] using any_key_filter_le fs.files p q h

theorem fsExists_fsWrite_of_not (fs : FsModel) (p q : String) (n : Nat)
    (hpq : p ≠ q) (h : fsExists fs q = false) :
    fsExists (fsWrite fs p n) q = false := by
  simp only [fsExists, fsWrite, List.any_append, Bool.or_eq_false_iff]
  refine ⟨any_key_filter_le fs.files p q h, by simp [hpq]⟩

/-- Claim C1: `downloadGitHubAssetToPath` streams to the
`targetPath ++ ".download"` temp file and renames it to `targetPath`
only on success, returning the final size in bytes; on any failure it
deletes the partial temp file and rethrows, so (starting from a state
where neither path exists) after a failed download neither the final
target path nor the temp file exists. -/
theorem downloadGitHubAssetToPath_atomic
    (fs : FsModel) (targetPath : String) (outcome : FetchStreamOutcome)
    (htarget : fsExists fs targetPath = false)
    (htemp : fsExists fs (targetPath ++ ".download") = false) :
    ((∀ n, outcome ≠ .streamOk n) →
      (∃ msg, (downloadGitHubAssetToPath fs targetPath outcome).2 = .error msg)
      ∧ fsExists (downloadGitHubAssetToPath fs targetPath outcome).1 targetPath = false
      ∧ fsExists (downloadGitHubAssetToPath fs targetPath outcome).1
          (targetPath ++ ".download") = false)
    ∧ (∀ n, outcome = .streamOk n →
      (downloadGitHubAssetToPath fs targetPath outcome).2 = .ok n
      ∧ fsSize (downloadGitHubAssetToPath fs targetPath outcome).1 targetPath = some n
      ∧ fsExists (downloadGitHubAssetToPath fs targetPath outcome).1
          (targetPath ++ ".download") = false) := by
  have hne : targetPath ++ ".download" ≠ targetPath := append_download_ne targetPath
  cases outcome with
  | fetchThrows msg =>
    exact ⟨fun _ => ⟨⟨msg, rfl⟩, htarget, htemp⟩, fun n h => by simp at h⟩
  | respNotOk code =>
    exact ⟨fun _ => ⟨⟨_, rfl⟩, htarget, htemp⟩, fun n h => by simp at h⟩
  | emptyBody =>
    exact ⟨fun _ => ⟨⟨_, rfl⟩, htarget, htemp⟩, fun n h => by simp at h⟩
  | streamFails partialBytes msg =>
    refine ⟨fun _ => ⟨⟨msg, rfl⟩, ?_, ?_⟩, fun n h => by simp at h⟩
    · show fsExists (if fsExists (fsWrite fs (targetPath ++ ".download") partialBytes)
          (targetPath ++ ".download") = true then _ else _) targetPath = false
      rw [if_pos (fsExists_fsWrite_self _ _ _)]
      exact fsExists_fsRemove_of_not _ _ _
        (fsExists_fsWrite_of_not _ _ _ _ hne htarget)
    · show fsExists (if fsExists (fsWrite fs (targetPath ++ ".download") partialBytes)
          (targetPath ++ ".download") = true then _ else _) (targetPath ++ ".download") = false
      rw [if_pos (fsExists_fsWrite_self _ _ _)]
      exact fsExists_fsRemove_self _ _
  | renameFails bytes msg =>
    refine ⟨fun _ => ⟨⟨msg, rfl⟩, ?_, ?_⟩, fun n h => by simp at h⟩
    · show fsExists (if fsExists (fsWrite fs (targetPath ++ ".download") bytes)
          (targetPath ++ ".download") = true then _ else _) targetPath = false
      rw [if_pos (fsExists_fsWrite_self _ _ _)]
      exact fsExists_fsRemove_of_not _ _ _
        (fsExists_fsWrite_of_not _ _ _ _ hne htarget)
    · show fsExists (if fsExists (fsWrite fs (targetPath ++ ".download") bytes)
          (targetPath ++ ".download") = true then _ else _) (targetPath ++ ".download") = false
      rw [if_pos (fsExists_fsWrite_self _ _ _)]
      exact fsExists_fsRemove_self _ _
  | streamOk bytes =>
    refine ⟨fun hno => absurd rfl (hno bytes), fun n h => ?_⟩
    have hb : bytes = n := by injection h
    subst hb
    have hren : fsRename (fsWrite fs (targetPath ++ ".download") bytes)
        (targetPath ++ ".download") targetPath =
        fsWrite (fsRemove (fsWrite fs (targetPath ++ ".download") bytes)
          (targetPath ++ ".download")) targetPath bytes := by
      unfold fsRename
      rw [fsSize_fsWrite_self]
    have hsz : fsSize (fsRename (fsWrite fs (targetPath ++ ".download") bytes)
        (targetPath ++ ".download") targetPath) targetPath = some bytes := by
      rw [hren]; exact fsSize_fsWrite_self _ _ _
    refine ⟨?_, ?_, ?_⟩
    · show (let fs1 := fsWrite fs (targetPath ++ ".download") bytes
        let fs2 := fsRename fs1 (targetPath ++ ".download") targetPath
        match fsSize fs2 targetPath with
        | some size => (fs2, Except.ok size)
        | none => (fs2, Except.error "ENOENT")).2 = Except.ok bytes
      simp only [hsz]
    · show fsSize (let fs1 := fsWrite fs (targetPath ++ ".download") bytes
        let fs2 := fsRename fs1 (targetPath ++ ".download") targetPath
        match fsSize fs2 targetPath with
        | some size => (fs2, Except.ok size)
        | none => (fs2, Except.error "ENOENT")).1 targetPath = some bytes
      simp only [hsz]
    · show fsExists (let fs1 := fsWrite fs (targetPath ++ ".download") bytes
        let fs2 := fsRename fs1 (targetPath ++ ".download") targetPath
        match fsSize fs2 targetPath with
        | some size => (fs2, Except.ok size)
        | none => (fs2, Except.error "ENOENT")).1 (targetPath ++ ".download") = false
      simp only [hsz]
      rw [hren]
      exact fsExists_fsWrite_of_not _ _ _ _ (Ne.symm hne)
        (fsExists_fsRemove_self _ _)

theorem downloadGitHubAssetToPath_atomic_witness :
    fsExists ⟨[]⟩ "/data/updates/v1.3.0/update.zip" = false
    ∧ fsExists ⟨[]⟩ ("/data/updates/v1.3.0/update.zip" ++ ".download") = false
    ∧ (∀ n, FetchStreamOutcome.streamFails 5 "socket reset" ≠ .streamOk n)
    ∧ ((∃ msg, (downloadGitHubAssetToPath ⟨[]⟩ "/data/updates/v1.3.0/update.zip"
          (.streamFails 5 "socket reset")).2 = .error msg)
        ∧ fsExists (downloadGitHubAssetToPath ⟨[]⟩ "/data/updates/v1.3.0/update.zip"
            (.streamFails 5 "socket reset")).1 "/data/updates/v1.3.0/update.zip" = false
        ∧ fsExists (downloadGitHubAssetToPath ⟨[]⟩ "/data/updates/v1.3.0/update.zip"
            (.streamFails 5 "socket reset")).1
            ("/data/updates/v1.3.0/update.zip" ++ ".download") = false) :=
  ⟨by decide, by decide, fun n h => by simp at h,
   (downloadGitHubAssetToPath_atomic ⟨[]⟩ "/data/updates/v1.3.0/update.zip"
     (.streamFails 5 "socket reset") (by decide) (by decide)).1
     (fun n h => by simp at h)⟩

/- ===================== Claim C2: tag sanitization and containment ===================== -/

theorem sanitizeTagChars_safe : ∀ (l : List Char) (b : Bool),
    ∀ c ∈ sanitizeTagChars l b, isTagSafeChar c = true := by
  intro l
  induction l with
  | nil => intro b c hc; exact absurd hc (List.not_mem_nil c)
  | cons c0 rest ih =>
    intro b c hc
    by_cases h0 : isTagSafeChar c0 = true
    · simp only [sanitizeTagChars, h0, if_true] at hc
      rcases List.mem_cons.mp hc with rfl | hmem
      · exact h0
      · exact ih _ _ hmem
    · simp only [sanitizeTagChars, h0, if_false] at hc
      cases b with
      | true =>
        simp only [if_true] at hc
        exact ih _ _ hc
      | false =>
        rw [if_neg (by simp)] at hc
        rcases List.mem_cons.mp hc with rfl | hmem
        · decide
        · exact ih _ _ hmem

theorem sanitizeTagForPath_ne_empty (tag : String) : sanitizeTagForPath tag ≠ "" := by
  have hdef : sanitizeTagForPath tag =
      (if String.mk (sanitizeTagChars (jsTrim tag).toList false) = "" then "latest"
       else String.mk (sanitizeTagChars (jsTrim tag).toList false)) := rfl
  rw [hdef]
  by_cases h : String.mk (sanitizeTagChars (jsTrim tag).toList false) = ""
  · rw [if_pos h]; decide
  · rw [if_neg h]; exact h

theorem sanitizeTagForPath_safe (tag : String) :
    ∀ c ∈ (sanitizeTagForPath tag).toList, isTagSafeChar c = true := by
  intro c hc
  have hdef : sanitizeTagForPath tag =
      (if String.mk (sanitizeTagChars (jsTrim tag).toList false) = "" then "latest"
       else String.mk (sanitizeTagChars (jsTrim tag).toList false)) := rfl
  rw [hdef] at hc
  by_cases h : String.mk (sanitizeTagChars (jsTrim tag).toList false) = ""
  · rw [if_pos h] at hc
    exact (by decide : ∀ x ∈ ("latest" : String).toList, isTagSafeChar x = true) c hc
  · rw [if_neg h] at hc
    exact sanitizeTagChars_safe _ _ c hc

theorem joinStep_clean (acc : List String) (comp : String)
    (h1 : comp ≠ "") (h2 : comp ≠ ".") (h3 : comp ≠ "..") :
    joinStep acc comp = acc ++ [comp] := by
  simp [joinStep, h1, h2, h3]

theorem foldl_joinStep_clean : ∀ (l acc : List String),
    (∀ c ∈ l, c ≠ "" ∧ c ≠ "." ∧ c ≠ "..") →
    List.foldl joinStep acc l = acc ++ l := by
  intro l
  induction l with
  | nil => intro acc _; simp
  | cons c rest ih =>
    intro acc h
    have hc := h c (List.mem_cons_self _ _)
    rw [List.foldl_cons, joinStep_clean _ _ hc.1 hc.2.1 hc.2.2,
      ih _ (fun x hx => h x (List.mem_cons_of_mem _ hx))]
    simp

theorem resolveGitHubUpdateTargetPath_eq (userData : List String) (assetName tag : String)
    (hud : ∀ c ∈ userData, c ≠ "" ∧ c ≠ "." ∧ c ≠ "..")
    (han1 : assetName ≠ "") (han2 : assetName ≠ ".") (han3 : assetName ≠ "..")
    (ht : sanitizeTagForPath tag ≠ "..") :
    resolveGitHubUpdateTargetPath userData assetName tag =
      userData ++ ["updates"] ++
        (if sanitizeTagForPath tag = "." then [assetName]
         else [sanitizeTagForPath tag, assetName]) := by
  have hud' : ∀ c ∈ userData ++ ["updates"], c ≠ "" ∧ c ≠ "." ∧ c ≠ ".." := by
    intro c hc
    rcases List.mem_append.mp hc with hin | hin
    · exact hud c hin
    · rcases List.mem_singleton.mp hin with rfl
      refine ⟨by decide, by decide, by decide⟩
  unfold resolveGitHubUpdateTargetPath getGitHubUpdateDownloadDir normalizeJoin
  rw [List.foldl_append, foldl_joinStep_clean (userData ++ ["updates"]) [] hud']
  simp only [List.nil_append]
  by_cases hdot : sanitizeTagForPath tag = "."
  · rw [List.foldl_cons, hdot]
    have hstep : joinStep (userData ++ ["updates"]) "." = userData ++ ["updates"] := by
      simp [joinStep]
    rw [hstep, List.foldl_cons, joinStep_clean _ _ han1 han2 han3, List.foldl_nil]
    simp
  · have hne := sanitizeTagForPath_ne_empty tag
    rw [List.foldl_cons, joinStep_clean _ _ hne hdot ht, List.foldl_cons,
      joinStep_clean _ _ han1 han2 han3, List.foldl_nil, if_neg hdot]
    simp

/-- Counterexample for claim C2: the release tag `".."` passes
`sanitizeTagForPath` unchanged (dots are allowed characters), and the
resulting target path `path.join(updatesDir, "..", "update.zip")`
normalizes to a path OUTSIDE the updates directory (one level up, in the
app data directory). -/
theorem resolveGitHubUpdateTargetPath_dotdot_escape :
    sanitizeTagForPath ".." = ".."
    ∧ resolveGitHubUpdateTargetPath ["home", "user", "bastion"] "update.zip" ".." =
        ["home", "user", "bastion", "update.zip"]
    ∧ ¬ withinDir (getGitHubUpdateDownloadDir ["home", "user", "bastion"])
        (resolveGitHubUpdateTargetPath ["home", "user", "bastion"] "update.zip" "..") := by
  refine ⟨by decide, by decide, ?_⟩
  rintro ⟨rest, hne, heq⟩
  have h1 : resolveGitHubUpdateTargetPath ["home", "user", "bastion"] "update.zip" ".." =
      ["home", "user", "bastion", "update.zip"] := by decide
  rw [h1] at heq
  have hempty : rest = [] := by
    have hlen := congrArg List.length heq
    rw [List.length_append] at hlen
    simp [getGitHubUpdateDownloadDir] at hlen
    exact hlen
  exact hne hempty

/-- Claim C2 (amended): for every tag, `sanitizeTagForPath` yields a
non-empty component whose characters all lie in `[A-Za-z0-9._-]`, and
for every tag whose sanitized form is not the literal `".."` the
resolved target path lies strictly inside the updates directory; the
single excluded value `".."` survives sanitization and escapes one
level (see the counterexample). -/
theorem github_update_target_path_contained
    (userData : List String) (assetName tag : String)
    (hud : ∀ c ∈ userData, c ≠ "" ∧ c ≠ "." ∧ c ≠ "..")
    (han1 : assetName ≠ "") (han2 : assetName ≠ ".") (han3 : assetName ≠ "..")
    (ht : sanitizeTagForPath tag ≠ "..") :
    sanitizeTagForPath tag ≠ ""
    ∧ (∀ c ∈ (sanitizeTagForPath tag).toList, isTagSafeChar c = true)
    ∧ withinDir (getGitHubUpdateDownloadDir userData)
        (resolveGitHubUpdateTargetPath userData assetName tag) := by
  refine ⟨sanitizeTagForPath_ne_empty tag, sanitizeTagForPath_safe tag, ?_⟩
  refine ⟨if sanitizeTagForPath tag = "." then [assetName]
    else [sanitizeTagForPath tag, assetName], ?_, ?_⟩
  · split <;> simp
  · rw [resolveGitHubUpdateTargetPath_eq userData assetName tag hud han1 han2 han3 ht]
    unfold getGitHubUpdateDownloadDir
    rw [List.append_assoc]

theorem github_update_target_path_contained_witness :
    (∀ c ∈ (["home", "user", "bastion"] : List String), c ≠ "" ∧ c ≠ "." ∧ c ≠ "..")
    ∧ sanitizeTagForPath "v1.3.0-beta!" ≠ ".."
    ∧ (sanitizeTagForPath "v1.3.0-beta!" ≠ ""
        ∧ (∀ c ∈ (sanitizeTagForPath "v1.3.0-beta!").toList, isTagSafeChar c = true)
        ∧ withinDir (getGitHubUpdateDownloadDir ["home", "user", "bastion"])
            (resolveGitHubUpdateTargetPath ["home", "user", "bastion"] "update.zip"
              "v1.3.0-beta!")) :=
  ⟨by decide, by decide,
   github_update_target_path_contained ["home", "user", "bastion"] "update.zip"
     "v1.3.0-beta!" (by decide) (by decide) (by decide) (by decide) (by decide)⟩

/- ===================== Claim C7: release selection ===================== -/

theorem sortByPublishedDesc_head_spec (pool : List GHRelease) :
    ((sortByPublishedDesc pool).head? = none ↔ pool = [])
    ∧ (∀ r, (sortByPublishedDesc pool).head? = some r →
        r ∈ pool ∧ ∀ s ∈ pool, s.publishedTime ≤ r.publishedTime) := by
  have hperm := List.perm_insertionSort ghLater pool
  have hsorted := List.sorted_insertionSort ghLater pool
  constructor
  · cases hs : sortByPublishedDesc pool with
    | nil =>
      simp only [List.head?_nil, true_iff]
      have hx : List.Perm ([] : List GHRelease) pool := by
        rw [← hs]; exact hperm
      exact (List.Perm.nil_eq hx).symm
    | cons a rest =>
      simp only [List.head?_cons]
      constructor
      · intro h; exact absurd h (by simp)
      · intro hpool
        rw [hpool] at hs
        exact absurd hs (by simp [sortByPublishedDesc, List.insertionSort])
  · intro r hr
    cases hs : sortByPublishedDesc pool with
    | nil => rw [hs] at hr; exact absurd hr (by simp)
    | cons a rest =>
      rw [hs] at hr
      simp only [List.head?_cons, Option.some.injEq] at hr
      rw [hr] at hs
      have hsort_eq : pool.insertionSort ghLater = r :: rest := hs
      constructor
      · have hmem : r ∈ pool.insertionSort ghLater := by
          rw [hsort_eq]; exact List.mem_cons_self _ _
        exact (List.mem_insertionSort ghLater).mp hmem
      · intro s hsmem
        have hsmem' : s ∈ pool.insertionSort ghLater :=
          (List.mem_insertionSort ghLater).mpr hsmem
        rw [hsort_eq] at hsmem'
        have hsorted' : List.Sorted ghLater (r :: rest) := by
          rw [← hsort_eq]; exact hsorted
        rcases List.mem_cons.mp hsmem' with rfl | hs''
        · exact le_refl _
        · exact List.rel_of_sorted_cons hsorted' s hs''

theorem selectionPoolOf_eq_nil_iff (releases : List GHRelease) (allowPrerelease : Bool) :
    selectionPoolOf releases allowPrerelease = [] ↔ nonDraftReleasesOf releases = [] := by
  unfold selectionPoolOf
  split
  · rename_i h
    constructor
    · intro hp
      rw [hp] at h
      exact absurd h (by simp)
    · intro hnd
      unfold preferredReleasesOf at h
      rw [hnd] at h
      exact absurd h (by simp)
  · exact Iff.rfl

theorem mem_selectionPoolOf (releases : List GHRelease) (allowPrerelease : Bool)
    (r : GHRelease) (h : r ∈ selectionPoolOf releases allowPrerelease) :
    r ∈ nonDraftReleasesOf releases := by
  unfold selectionPoolOf at h
  split at h
  · exact List.mem_of_mem_filter h
  · exact h

/-- Claim C7: `fetchLatestGitHubRelease` selects the release as
specified: drafts are removed; prereleases are removed unless
`allowPrerelease`, falling back to the whole draft-free set when this
empties the pool; the remaining pool is sorted by publish timestamp
descending (unparseable timestamps are 0) and the first element is
returned, or none when no release remains. -/
theorem selectLatestGitHubRelease_release_selection
    (releases : List GHRelease) (allowPrerelease : Bool) :
    (selectLatestGitHubRelease releases allowPrerelease = none ↔
      nonDraftReleasesOf releases = [])
    ∧ (preferredReleasesOf releases allowPrerelease = [] →
        selectionPoolOf releases allowPrerelease = nonDraftReleasesOf releases)
    ∧ (∀ r, selectLatestGitHubRelease releases allowPrerelease = some r →
        r ∈ selectionPoolOf releases allowPrerelease
        ∧ r ∈ releases ∧ r.draft = false
        ∧ (allowPrerelease = false →
            preferredReleasesOf releases allowPrerelease ≠ [] → r.prerelease = false)
        ∧ ∀ s ∈ selectionPoolOf releases allowPrerelease,
            s.publishedTime ≤ r.publishedTime) := by
  obtain ⟨hnone, hsome⟩ := sortByPublishedDesc_head_spec (selectionPoolOf releases allowPrerelease)
  refine ⟨?_, ?_, ?_⟩
  · unfold selectLatestGitHubRelease
    rw [hnone]
    exact selectionPoolOf_eq_nil_iff releases allowPrerelease
  · intro hp
    unfold selectionPoolOf
    rw [hp]
    simp
  · intro r hr
    obtain ⟨hmem, hmax⟩ := hsome r hr
    have hnd : r ∈ nonDraftReleasesOf releases := mem_selectionPoolOf _ _ _ hmem
    obtain ⟨hrel, hdraft⟩ := List.mem_filter.mp hnd
    refine ⟨hmem, hrel, by simpa using hdraft, ?_, hmax⟩
    intro hallow hpne
    have hlen : (preferredReleasesOf releases allowPrerelease).length > 0 :=
      List.length_pos.mpr hpne
    have hpool : selectionPoolOf releases allowPrerelease =
        preferredReleasesOf releases allowPrerelease := by
      unfold selectionPoolOf
      rw [if_pos hlen]
    rw [hpool] at hmem
    have := (List.mem_filter.mp hmem).2
    rw [hallow] at this
    simpa using this

theorem selectLatestGitHubRelease_release_selection_witness :
    selectLatestGitHubRelease
      [{ tag_name := "v2.0.0-draft", draft := true, prerelease := false
         publishedTime := 400, assets := [], html_url := "" },
       { tag_name := "v1.9.0-rc1", draft := false, prerelease := true
         publishedTime := 300, assets := [], html_url := "" },
       { tag_name := "v1.8.0", draft := false, prerelease := false
         publishedTime := 200, assets := [], html_url := "" },
       { tag_name := "v1.7.0", draft := false, prerelease := false
         publishedTime := 100, assets := [], html_url := "" }] false =
      some { tag_name := "v1.8.0", draft := false, prerelease := false
             publishedTime := 200, assets := [], html_url := "" }
    ∧ ({ tag_name := "v1.8.0", draft := false, prerelease := false
         publishedTime := 200, assets := [], html_url := "" } : GHRelease) ∈
        selectionPoolOf
          [{ tag_name := "v2.0.0-draft", draft := true, prerelease := false
             publishedTime := 400, assets := [], html_url := "" },
           { tag_name := "v1.9.0-rc1", draft := false, prerelease := true
             publishedTime := 300, assets := [], html_url := "" },
           { tag_name := "v1.8.0", draft := false, prerelease := false
             publishedTime := 200, assets := [], html_url := "" },
           { tag_name := "v1.7.0", draft := false, prerelease := false
             publishedTime := 100, assets := [], html_url := "" }] false
    ∧ (∀ s ∈ selectionPoolOf
          [{ tag_name := "v2.0.0-draft", draft := true, prerelease := false
             publishedTime := 400, assets := [], html_url := "" },
           { tag_name := "v1.9.0-rc1", draft := false, prerelease := true
             publishedTime := 300, assets := [], html_url := "" },
           { tag_name := "v1.8.0", draft := false, prerelease := false
             publishedTime := 200, assets := [], html_url := "" },
           { tag_name := "v1.7.0", draft := false, prerelease := false
             publishedTime := 100, assets := [], html_url := "" }] false,
        s.publishedTime ≤ 200) := by
  have h := (selectLatestGitHubRelease_release_selection
    [{ tag_name := "v2.0.0-draft", draft := true, prerelease := false
       publishedTime := 400, assets := [], html_url := "" },
     { tag_name := "v1.9.0-rc1", draft := false, prerelease := true
       publishedTime := 300, assets := [], html_url := "" },
     { tag_name := "v1.8.0", draft := false, prerelease := false
       publishedTime := 200, assets := [], html_url := "" },
     { tag_name := "v1.7.0", draft := false, prerelease := false
       publishedTime := 100, assets := [], html_url := "" }] false).2.2
    { tag_name := "v1.8.0", draft := false, prerelease := false
      publishedTime := 200, assets := [], html_url := "" } (by decide)
  exact ⟨by decide, h.1, h.2.2.2.2⟩

/- ===================== Claim C8: up-to-date short circuit ===================== -/

/-- Claim C8: when the remote tag's version and the running version both
parse to at least one numeric part and `compareVersions` says the remote
version is less than or equal to the current one, the check ends with
status `idle` and an already-up-to-date message, records the normalized
remote tag as both `availableVersion` and `downloadedVersion` for
display, performs no download, and leaves metadata and disk untouched. -/
theorem github_check_up_to_date
    (s : UpdaterState) (env : CheckEnv) (opts : CheckOpts) (release : GHRelease)
    (hfetch : env.fetchResult = .ok (some release))
    (htag : release.tag_name ≠ "")
    (hlp : parseVersionParts (normalizeVersionFromTag (jsTrim release.tag_name)) ≠ [])
    (hcp : parseVersionParts (normalizeVersionFromTag env.appVersion) ≠ [])
    (hle : compareVersions (normalizeVersionFromTag (jsTrim release.tag_name))
        (normalizeVersionFromTag env.appVersion) ≤ 0) :
    (checkGitHubReleaseZipUpdate s env opts).1 =
      .upToDate (jsTrim release.tag_name) s.metadata.filePath
    ∧ (checkGitHubReleaseZipUpdate s env opts).2.2 = false
    ∧ (checkGitHubReleaseZipUpdate s env opts).2.1.status.status = "idle"
    ∧ (checkGitHubReleaseZipUpdate s env opts).2.1.status.message =
        "You are already on version " ++ env.appVersion ++ "."
    ∧ (checkGitHubReleaseZipUpdate s env opts).2.1.status.availableVersion =
        some (normalizeVersionFromTag (jsTrim release.tag_name))
    ∧ (checkGitHubReleaseZipUpdate s env opts).2.1.status.downloadedVersion =
        some (normalizeVersionFromTag (jsTrim release.tag_name))
    ∧ (checkGitHubReleaseZipUpdate s env opts).2.1.metadata = s.metadata
    ∧ (checkGitHubReleaseZipUpdate s env opts).2.1.fsFiles = s.fsFiles := by
  have hnv : normalizeVersionFromTag (jsTrim release.tag_name) ≠ "" := by
    intro h
    apply hlp
    rw [h]
    rfl
  have hgate : (parseVersionParts (normalizeVersionFromTag (jsTrim release.tag_name))).length > 0
      ∧ (parseVersionParts (normalizeVersionFromTag env.appVersion)).length > 0
      ∧ compareVersions (normalizeVersionFromTag (jsTrim release.tag_name))
          (normalizeVersionFromTag env.appVersion) ≤ 0 :=
    ⟨List.length_pos.mpr hlp, List.length_pos.mpr hcp, hle⟩
  simp [checkGitHubReleaseZipUpdate, hfetch, htag, hgate, hnv]

/-- Source `createInitialUpdateStatus`, restricted to the modeled
fields. -/
def createInitialUpdateStatusModel : UpdateStatusModel :=
  { status := "idle", message := "Updater idle.", availableVersion := none
    downloadedVersion := none, updateFilePath := none, releasePage := none
    progressPercent := 0, error := none }

/-- A concrete fresh updater state used by witnesses. -/
def freshUpdaterState : UpdaterState :=
  { metadata := createInitialGitHubUpdateMetadata, fsFiles := []
    status := createInitialUpdateStatusModel, launched := [] }

/-- A concrete remote release whose tag equals the running version,
used by witnesses. -/
def sameVersionRelease : GHRelease :=
  { tag_name := "v1.2.0", draft := false, prerelease := false, publishedTime := 10
    assets := [{ name := "update.zip", browser_download_url := "https://x/u.zip" }]
    html_url := "https://github.com/x" }

/-- A concrete check environment where the remote tag equals the running
version `1.2.0`. -/
def sameVersionEnv : CheckEnv :=
  { fetchResult := .ok (some sameVersionRelease), appVersion := "1.2.0"
    assetName := "update.zip", tagsPageURL := "https://tags"
    userData := ["home", "user", "bastion"], downloadResult := .ok 42, now := 7 }

theorem github_check_up_to_date_witness :
    sameVersionEnv.fetchResult = .ok (some sameVersionRelease)
    ∧ (checkGitHubReleaseZipUpdate freshUpdaterState sameVersionEnv
        { manual := true, download := true, forceDownload := false }).1 =
      .upToDate "v1.2.0" ""
    ∧ (checkGitHubReleaseZipUpdate freshUpdaterState sameVersionEnv
        { manual := true, download := true, forceDownload := false }).2.2 = false
    ∧ (checkGitHubReleaseZipUpdate freshUpdaterState sameVersionEnv
        { manual := true, download := true, forceDownload := false }).2.1.status.status =
      "idle" := by
  have h := github_check_up_to_date freshUpdaterState sameVersionEnv
    { manual := true, download := true, forceDownload := false }
    sameVersionRelease rfl (by decide) (by decide) (by decide) (by decide)
  exact ⟨rfl, h.1, h.2.1, h.2.2.1⟩

/- ===================== Claim C3: idempotence ===================== -/

theorem renderPath_foldl_length_ge : ∀ (l : List String) (acc : String),
    acc.length ≤ (List.foldl (fun acc comp => acc ++ "/" ++ comp) acc l).length := by
  intro l
  induction l with
  | nil => intro acc; simp
  | cons c cs ih =>
    intro acc
    refine le_trans ?_ (ih (acc ++ "/" ++ c))
    rw [String.length_append, String.length_append]
    omega

theorem renderPath_ne_empty (l : List String) (h : l ≠ []) : renderPath l ≠ "" := by
  cases l with
  | nil => exact absurd rfl h
  | cons c cs =>
    intro h0
    have hlen := congrArg String.length h0
    unfold renderPath at hlen
    rw [List.foldl_cons] at hlen
    have hge := renderPath_foldl_length_ge cs ("" ++ "/" ++ c)
    rw [hlen] at hge
    rw [String.length_append, String.length_append] at hge
    have h1 : ("" : String).length = 0 := rfl
    have h2 : ("/" : String).length = 1 := rfl
    have h3 : ("" : String).length = 0 := rfl
    rw [h1, h2] at hge
    simp at hge

theorem resolveGitHubUpdateTargetPath_ne_nil (userData : List String) (assetName tag : String)
    (han1 : assetName ≠ "") (han2 : assetName ≠ ".") (han3 : assetName ≠ "..") :
    resolveGitHubUpdateTargetPath userData assetName tag ≠ [] := by
  unfold resolveGitHubUpdateTargetPath normalizeJoin
  rw [List.foldl_append, List.foldl_cons, List.foldl_cons, List.foldl_nil,
    joinStep_clean _ _ han1 han2 han3]
  simp

theorem destinationPath_ne_empty (userData : List String) (assetName tag : String)
    (han1 : assetName ≠ "") (han2 : assetName ≠ ".") (han3 : assetName ≠ "..") :
    renderPath (resolveGitHubUpdateTargetPath userData assetName tag) ≠ "" :=
  renderPath_ne_empty _
    (resolveGitHubUpdateTargetPath_ne_nil userData assetName tag han1 han2 han3)

theorem github_check_already_downloaded
    (s : UpdaterState) (env : CheckEnv) (opts : CheckOpts) (release : GHRelease)
    (hfetch : env.fetchResult = .ok (some release))
    (htag : release.tag_name ≠ "")
    (hgate : ¬((parseVersionParts (normalizeVersionFromTag (jsTrim release.tag_name))).length > 0
        ∧ (parseVersionParts (normalizeVersionFromTag env.appVersion)).length > 0
        ∧ compareVersions (normalizeVersionFromTag (jsTrim release.tag_name))
            (normalizeVersionFromTag env.appVersion) ≤ 0))
    (hurl : ∃ downloadURL, (findReleaseAsset release env.assetName).bind
        (fun asset => if asset.browser_download_url = "" then none
          else some asset.browser_download_url) = some downloadURL)
    (hlast : s.metadata.lastTag = jsTrim release.tag_name)
    (hfile : s.metadata.filePath ≠ "")
    (hmem : s.metadata.filePath ∈ s.fsFiles)
    (hforce : opts.forceDownload = false) :
    ∃ applied : Bool,
      (checkGitHubReleaseZipUpdate s env opts).1 =
        .alreadyDownloaded (jsTrim release.tag_name) applied s.metadata.filePath
      ∧ (applied = true ↔ (jsTrim release.tag_name ≠ "" ∧
          s.metadata.lastAppliedTag = jsTrim release.tag_name))
      ∧ (checkGitHubReleaseZipUpdate s env opts).2.2 = false
      ∧ (checkGitHubReleaseZipUpdate s env opts).2.1.metadata = s.metadata
      ∧ (checkGitHubReleaseZipUpdate s env opts).2.1.fsFiles = s.fsFiles
      ∧ (checkGitHubReleaseZipUpdate s env opts).2.1.status.status =
          (if applied = true then "idle" else "downloaded") := by
  obtain ⟨downloadURL, hu⟩ := hurl
  have hreuse : (s.metadata.lastTag = jsTrim release.tag_name ∧ s.metadata.filePath ≠ ""
      ∧ s.metadata.filePath ∈ s.fsFiles) ∧ opts.forceDownload = false :=
    ⟨⟨hlast, hfile, hmem⟩, hforce⟩
  refine ⟨decide (jsTrim release.tag_name ≠ "") &&
    decide (s.metadata.lastAppliedTag = jsTrim release.tag_name), ?_, ?_, ?_, ?_, ?_, ?_⟩
  · simp [checkGitHubReleaseZipUpdate, hfetch, htag, hgate, hu, hreuse]
  · simp [Bool.and_eq_true, decide_eq_true_eq]
  · simp [checkGitHubReleaseZipUpdate, hfetch, htag, hgate, hu, hreuse]
  · simp [checkGitHubReleaseZipUpdate, hfetch, htag, hgate, hu, hreuse]
  · simp [checkGitHubReleaseZipUpdate, hfetch, htag, hgate, hu, hreuse]
  · simp [checkGitHubReleaseZipUpdate, hfetch, htag, hgate, hu, hreuse]

/-- Claim C3: update checking is idempotent per tag: when a check has
just downloaded the artifact for the latest remote tag, a second check
for the same environment with `forceDownload` unset attempts no new
download and returns `alreadyDownloaded` (status `downloaded`, or `idle`
when the tag is already applied), leaving metadata and disk unchanged;
and `applyGitHubReleaseZipUpdate` called non-manually for a tag equal to
`lastAppliedTag` (on Windows, with the zip present) is a no-op success
that does not re-apply. -/
theorem github_update_idempotent_per_tag :
    (∀ (s0 : UpdaterState) (env : CheckEnv) (opts1 opts2 : CheckOpts)
        (tag fp : String) (n : Nat),
      env.assetName ≠ "" → env.assetName ≠ "." → env.assetName ≠ ".." →
      (checkGitHubReleaseZipUpdate s0 env opts1).1 = .downloaded tag fp n →
      opts2.forceDownload = false →
      ∃ applied : Bool,
        (checkGitHubReleaseZipUpdate (checkGitHubReleaseZipUpdate s0 env opts1).2.1
            env opts2).1 = .alreadyDownloaded tag applied fp
        ∧ (checkGitHubReleaseZipUpdate (checkGitHubReleaseZipUpdate s0 env opts1).2.1
            env opts2).2.2 = false
        ∧ (checkGitHubReleaseZipUpdate (checkGitHubReleaseZipUpdate s0 env opts1).2.1
            env opts2).2.1.metadata =
            (checkGitHubReleaseZipUpdate s0 env opts1).2.1.metadata
        ∧ (checkGitHubReleaseZipUpdate (checkGitHubReleaseZipUpdate s0 env opts1).2.1
            env opts2).2.1.fsFiles =
            (checkGitHubReleaseZipUpdate s0 env opts1).2.1.fsFiles
        ∧ (checkGitHubReleaseZipUpdate (checkGitHubReleaseZipUpdate s0 env opts1).2.1
            env opts2).2.1.status.status =
            (if applied = true then "idle" else "downloaded")
        ∧ (applied = true ↔ (tag ≠ "" ∧
            (checkGitHubReleaseZipUpdate s0 env opts1).2.1.metadata.lastAppliedTag = tag)))
    ∧ (∀ (s : UpdaterState) (env : ApplyEnv) (tagArg zipPathArg releasePageArg : String),
        env.platformWin32 = true →
        jsTrim zipPathArg ≠ "" →
        jsTrim zipPathArg ∈ s.fsFiles →
        jsTrim tagArg ≠ "" →
        s.metadata.lastAppliedTag = jsTrim tagArg →
        applyGitHubReleaseZipUpdate s env false tagArg zipPathArg releasePageArg =
          (.skippedAlreadyApplied (jsTrim tagArg), s)) := by
  constructor
  · intro s0 env opts1 opts2 tag fp n han1 han2 han3 hres1 hforce
    rcases hf : env.fetchResult with msg | ofetched
    · simp [checkGitHubReleaseZipUpdate, hf] at hres1
    · rcases ofetched with _ | release
      · simp [checkGitHubReleaseZipUpdate, hf] at hres1
      · by_cases htag : release.tag_name = ""
        · simp [checkGitHubReleaseZipUpdate, hf, htag] at hres1
        · by_cases hgate :
            ((parseVersionParts (normalizeVersionFromTag (jsTrim release.tag_name))).length > 0
              ∧ (parseVersionParts (normalizeVersionFromTag env.appVersion)).length > 0
              ∧ compareVersions (normalizeVersionFromTag (jsTrim release.tag_name))
                  (normalizeVersionFromTag env.appVersion) ≤ 0)
          · simp [checkGitHubReleaseZipUpdate, hf, htag, hgate] at hres1
          · rcases hu : (findReleaseAsset release env.assetName).bind
                (fun asset => if asset.browser_download_url = "" then none
                  else some asset.browser_download_url) with _ | downloadURL
            · simp [checkGitHubReleaseZipUpdate, hf, htag, hgate, hu] at hres1
            · by_cases hreuse :
                ((s0.metadata.lastTag = jsTrim release.tag_name
                  ∧ s0.metadata.filePath ≠ "" ∧ s0.metadata.filePath ∈ s0.fsFiles)
                  ∧ opts1.forceDownload = false)
              · simp [checkGitHubReleaseZipUpdate, hf, htag, hgate, hu, hreuse] at hres1
              · by_cases hdl : opts1.download = false
                · simp [checkGitHubReleaseZipUpdate, hf, htag, hgate, hu, hreuse,
                    hdl] at hres1
                · rcases hdr : env.downloadResult with msg | size
                  · simp [checkGitHubReleaseZipUpdate, hf, htag, hgate, hu, hreuse,
                      hdl, hdr] at hres1
                  · simp [checkGitHubReleaseZipUpdate, hf, htag, hgate, hu, hreuse,
                      hdl, hdr] at hres1
                    have hs1l : (checkGitHubReleaseZipUpdate s0 env opts1).2.1.metadata.lastTag =
                        jsTrim release.tag_name := by
                      simp [checkGitHubReleaseZipUpdate, hf, htag, hgate, hu, hreuse, hdl, hdr]
                    have hs1f : (checkGitHubReleaseZipUpdate s0 env opts1).2.1.metadata.filePath =
                        renderPath (resolveGitHubUpdateTargetPath env.userData env.assetName
                          (jsTrim release.tag_name)) := by
                      simp [checkGitHubReleaseZipUpdate, hf, htag, hgate, hu, hreuse, hdl, hdr]
                    have hs1mem : (checkGitHubReleaseZipUpdate s0 env opts1).2.1.metadata.filePath ∈
                        (checkGitHubReleaseZipUpdate s0 env opts1).2.1.fsFiles := by
                      simp [checkGitHubReleaseZipUpdate, hf, htag, hgate, hu, hreuse, hdl, hdr]
                    have hs1file : (checkGitHubReleaseZipUpdate s0 env opts1).2.1.metadata.filePath ≠ "" := by
                      rw [hs1f]
                      exact destinationPath_ne_empty _ _ _ han1 han2 han3
                    obtain ⟨applied, ha1, ha2, ha3, ha4, ha5, ha6⟩ :=
                      github_check_already_downloaded
                        (checkGitHubReleaseZipUpdate s0 env opts1).2.1 env opts2 release
                        hf htag hgate ⟨downloadURL, hu⟩ hs1l hs1file hs1mem hforce
                    refine ⟨applied, ?_, ha3, ha4, ha5, ha6, ?_⟩
                    · rw [ha1, hs1f]
                      rw [show renderPath (resolveGitHubUpdateTargetPath env.userData
                        env.assetName (jsTrim release.tag_name)) = fp from hres1.2.1]
                      rw [show jsTrim release.tag_name = tag from hres1.1]
                    · rw [ha2]
                      rw [show jsTrim release.tag_name = tag from hres1.1]
  · intro s env tagArg zipPathArg releasePageArg hwin hzip hmem htag happ
    simp [applyGitHubReleaseZipUpdate, hwin, hzip, hmem, htag, happ]

/-- A concrete remote release newer than the running version, used by
witnesses. -/
def newerVersionRelease : GHRelease :=
  { tag_name := "v1.3.0", draft := false, prerelease := false, publishedTime := 20
    assets := [{ name := "update.zip", browser_download_url := "https://x/u.zip" }]
    html_url := "https://github.com/x" }

/-- A concrete check environment offering `v1.3.0` to a running `1.2.0`. -/
def newerVersionEnv : CheckEnv :=
  { fetchResult := .ok (some newerVersionRelease), appVersion := "1.2.0"
    assetName := "update.zip", tagsPageURL := "https://tags"
    userData := ["home", "user", "bastion"], downloadResult := .ok 42, now := 7 }

/-- Concrete metadata after downloading and applying tag `v1.3.0`. -/
def appliedMetadata : GitHubUpdateMetadata :=
  { lastTag := "v1.3.0", filePath := "/home/user/bastion/updates/v1.3.0/update.zip"
    downloadedAt := 7, sizeBytes := 42, assetName := "update.zip"
    releasePage := "https://github.com/x", lastAppliedTag := "v1.3.0", appliedAt := 9 }

/-- A concrete state in which tag `v1.3.0` is downloaded and applied. -/
def appliedUpdaterState : UpdaterState :=
  { metadata := appliedMetadata
    fsFiles := ["/home/user/bastion/updates/v1.3.0/update.zip"]
    status := createInitialUpdateStatusModel, launched := [] }

/-- A concrete apply environment on Windows. -/
def sampleApplyEnv : ApplyEnv :=
  { platformWin32 := true, extractionResult := .ok (), extractedFiles := []
    userData := ["home", "user", "bastion"], now := 11 }

theorem github_update_idempotent_per_tag_witness :
    ((checkGitHubReleaseZipUpdate freshUpdaterState newerVersionEnv
        { manual := false, download := true, forceDownload := false }).1 =
      .downloaded "v1.3.0" "/home/user/bastion/updates/v1.3.0/update.zip" 42)
    ∧ (∃ applied : Bool,
        (checkGitHubReleaseZipUpdate
          (checkGitHubReleaseZipUpdate freshUpdaterState newerVersionEnv
            { manual := false, download := true, forceDownload := false }).2.1
          newerVersionEnv
          { manual := true, download := true, forceDownload := false }).1 =
          .alreadyDownloaded "v1.3.0" applied
            "/home/user/bastion/updates/v1.3.0/update.zip"
        ∧ (checkGitHubReleaseZipUpdate
            (checkGitHubReleaseZipUpdate freshUpdaterState newerVersionEnv
              { manual := false, download := true, forceDownload := false }).2.1
            newerVersionEnv
            { manual := true, download := true, forceDownload := false }).2.2 = false)
    ∧ applyGitHubReleaseZipUpdate appliedUpdaterState sampleApplyEnv false "v1.3.0"
        "/home/user/bastion/updates/v1.3.0/update.zip" "" =
      (.skippedAlreadyApplied "v1.3.0", appliedUpdaterState) := by
  have h1 := github_update_idempotent_per_tag.1 freshUpdaterState newerVersionEnv
    { manual := false, download := true, forceDownload := false }
    { manual := true, download := true, forceDownload := false }
    "v1.3.0" "/home/user/bastion/updates/v1.3.0/update.zip" 42
    (by decide) (by decide) (by decide) (by decide) rfl
  have h2 := github_update_idempotent_per_tag.2 appliedUpdaterState sampleApplyEnv
    "v1.3.0" "/home/user/bastion/updates/v1.3.0/update.zip" ""
    rfl (by decide) (by decide) (by decide) (by decide)
  refine ⟨by decide, ?_, ?_⟩
  · obtain ⟨applied, ha1, ha2, _⟩ := h1
    exact ⟨applied, ha1, ha2⟩
  · have hjt : jsTrim "v1.3.0" = "v1.3.0" := by decide
    rw [hjt] at h2
    exact h2
